import Mathlib

set_option autoImplicit false

/-!
Verification development for the bingosync room/game server.

The definitions below are a shallow embedding of the Go sources:
`internal/game/types.go`, `internal/game/game.go` (engine),
`internal/room` (room aggregate) and `internal/websocket/handler.go`
(message dispatch).  Go integers are modelled as `Int`; in-place
mutation is modelled by returning the (possibly updated) state together
with an optional error, mirroring the Go control flow exactly: an error
return carries the state as it is at the moment of the `return` statement.
-/

namespace Bingosync

/-- `PlayerColor` from types.go: ColorNone, ColorRed, ColorBlue. -/
inductive PlayerColor where
  | none
  | red
  | blue
deriving DecidableEq

/-- `GameRule` from types.go: RuleNormal, RuleBlackout, RulePhase. -/
inductive GameRule where
  | normal
  | blackout
  | phase
deriving DecidableEq

/-- `GameStatus` from types.go. -/
inductive GameStatus where
  | waiting
  | playing
  | finished
deriving DecidableEq

/-- `WinReason` from types.go. -/
inductive WinReason where
  | bingo
  | fullBoard
  | blackout
  | phase
deriving DecidableEq

/-- `Winner` struct from types.go. -/
structure Winner where
  winner : PlayerColor
  reason : WinReason
  redScore : Int
  blueScore : Int
deriving DecidableEq

/-- `PhaseConfig` from types.go (second revision, with SecondHalfScores). -/
structure PhaseConfig where
  rowScores : Nat → Int
  secondHalfScores : Nat → Int
  cellsPerRow : Int
  unlockThreshold : Int
  bingoBonus : Int
  finalBonus : Int

/-- `DefaultPhaseConfig` from types.go. -/
def defaultPhaseConfig : PhaseConfig where
  rowScores := fun r => ([2, 2, 4, 4, 6] : List Int).getD r 0
  secondHalfScores := fun r => ([1, 1, 2, 2, 3] : List Int).getD r 0
  cellsPerRow := 3
  unlockThreshold := 2
  bingoBonus := 3
  finalBonus := 3

/-- `Cell` from types.go. -/
structure Cell where
  markedBy : PlayerColor
  secondMark : PlayerColor
  times : Int
  text : String
deriving DecidableEq

def emptyCell : Cell := ⟨.none, .none, 0, ""⟩

/-- The 5x5 board, addressed by (row, col); `NewBoard` zero-initializes. -/
def Board := Nat → Nat → Cell

def newBoard : Board := fun _ _ => emptyCell

/-- Writing one cell of the board (Go: assignment through `&g.Board.Cells[r][c]`). -/
def setCell (b : Board) (r c : Nat) (cell : Cell) : Board :=
  fun i j => if i = r ∧ j = c then cell else b i j

/-- Writing one entry of a per-row counter array (Go: `g.RedRowMarks[row] = v`). -/
def updRow (m : Nat → Int) (r : Nat) (v : Int) : Nat → Int :=
  fun i => if i = r then v else m i

/-- All distinct error values returned by the engine, room aggregate and handler. -/
inductive GErr where
  | gameNotStarted
  | gameFinished
  | cellAlreadyMarked
  | rowLocked
  | rowLimitExceeded
  | alreadySettled
  | cannotSettleYet
  | invalidPosition
  | alreadyMarkedByPlayer
  | gameAlreadyInProgress
  | invalidTextsLength
  | notOwner
  | gameInProgress
  | userNotFound
  | playerAlreadySet
  | canOnlyMarkOwnColor
  | spectatorsCannotMark
  | onlyRefereeCanUnmark
  | spectatorsCannotClear
  | canOnlyClearOwnColor
  | canOnlySettleSelf
  | spectatorsCannotSettle
  | cellTextOnlyWaiting
deriving DecidableEq

/-- `Game` struct from types.go (second revision). -/
structure Game where
  board : Board
  rule : GameRule
  phaseConfig : PhaseConfig
  status : GameStatus
  winner : Option Winner
  redRowMarks : Nat → Int
  blueRowMarks : Nat → Int
  redUnlockedRow : Int
  blueUnlockedRow : Int
  bingoAchiever : PlayerColor
  bingoLine : Int
  redSettled : Bool
  blueSettled : Bool
  firstSettler : PlayerColor

/-- `NewGame` from game.go. -/
def newGame (rule : GameRule) : Game where
  board := newBoard
  rule := rule
  phaseConfig := defaultPhaseConfig
  status := .waiting
  winner := Option.none
  redRowMarks := fun _ => 0
  blueRowMarks := fun _ => 0
  redUnlockedRow := 0
  blueUnlockedRow := 0
  bingoAchiever := .none
  bingoLine := -1
  redSettled := false
  blueSettled := false
  firstSettler := .none

/-- `Game.Start`: fails only when already playing. -/
def Game.start (g : Game) : Game × Option GErr :=
  if g.status = .playing then (g, some .gameAlreadyInProgress)
  else ({ g with status := .playing }, Option.none)

/-- `markNormal`: cell must be unclaimed. -/
def Game.markNormal (g : Game) (row col : Nat) (player : PlayerColor) :
    Game × Option GErr :=
  let cell := g.board row col
  if cell.markedBy ≠ .none then (g, some .cellAlreadyMarked)
  else ({ g with board := setCell g.board row col { cell with markedBy := player } },
        Option.none)

/-- `markBlackout`: both colors may claim; first into markedBy, second into secondMark. -/
def Game.markBlackout (g : Game) (row col : Nat) (player : PlayerColor) :
    Game × Option GErr :=
  let cell := g.board row col
  if cell.markedBy = player then (g, some .alreadyMarkedByPlayer)
  else if cell.secondMark = player then (g, some .alreadyMarkedByPlayer)
  else if cell.markedBy = .none then
    ({ g with board := setCell g.board row col { cell with markedBy := player, times := 1 } },
     Option.none)
  else if cell.secondMark = .none then
    ({ g with board := setCell g.board row col { cell with secondMark := player, times := 2 } },
     Option.none)
  else (g, some .cellAlreadyMarked)

/-- One cell on a scanning line: Go `g.Board.Cells[startRow+i*dRow][startCol+i*dCol]`. -/
def Game.lineCell (g : Game) (startRow startCol dRow dCol : Int) (i : Nat) : Cell :=
  g.board (startRow + i * dRow).toNat (startCol + i * dCol).toNat

/-- The per-color claim count over a 5-cell line (`checkPhaseLineBingo` counting loop). -/
def Game.lineColorCount (g : Game) (startRow startCol dRow dCol : Int)
    (c : PlayerColor) : Nat :=
  ((List.range 5).filter (fun i =>
    (g.lineCell startRow startCol dRow dCol i).markedBy = c ∨
    (g.lineCell startRow startCol dRow dCol i).secondMark = c)).length

/-- `checkPhaseLineBingo`: records the achiever/line when one color holds all 5 cells. -/
def Game.checkPhaseLineBingo (g : Game) (startRow startCol dRow dCol lineIndex : Int) :
    Game × Bool :=
  let redCount := g.lineColorCount startRow startCol dRow dCol .red
  let blueCount := g.lineColorCount startRow startCol dRow dCol .blue
  if redCount = 5 ∧ g.bingoAchiever = .none then
    ({ g with bingoAchiever := .red, bingoLine := lineIndex }, true)
  else if blueCount = 5 ∧ g.bingoAchiever = .none then
    ({ g with bingoAchiever := .blue, bingoLine := lineIndex }, true)
  else (g, false)

/-- The column loop of `checkPhaseBingo` (early return on first hit). -/
def Game.checkPhaseBingoCols (g : Game) : List Nat → Game × Bool
  | [] => (g, false)
  | col :: rest =>
      let res := g.checkPhaseLineBingo 0 (col : Int) 1 0 (col : Int)
      if res.2 then (res.1, true) else res.1.checkPhaseBingoCols rest

/-- `checkPhaseBingo`: 5 columns, then the two diagonals (lines 5 and 6). -/
def Game.checkPhaseBingo (g : Game) : Game × Bool :=
  let resCols := g.checkPhaseBingoCols [0, 1, 2, 3, 4]
  if resCols.2 then (resCols.1, true)
  else
    let resD1 := resCols.1.checkPhaseLineBingo 0 0 1 1 5
    if resD1.2 then (resD1.1, true)
    else
      let resD2 := resD1.1.checkPhaseLineBingo 0 4 1 (-1) 6
      if resD2.2 then (resD2.1, true) else (resD2.1, false)

/-- `markPhase`: row-lock, per-row limit, dual-slot claim, frontier advance, Bingo scan. -/
def Game.markPhase (g : Game) (row col : Nat) (player : PlayerColor) :
    Game × Option GErr :=
  let cell := g.board row col
  let unlockedRow := if player = .red then g.redUnlockedRow else g.blueUnlockedRow
  let rowMarks := if player = .red then g.redRowMarks row else g.blueRowMarks row
  if (row : Int) > unlockedRow then (g, some .rowLocked)
  else if rowMarks ≥ g.phaseConfig.cellsPerRow then (g, some .rowLimitExceeded)
  else if cell.markedBy = player ∨ cell.secondMark = player then
    (g, some .alreadyMarkedByPlayer)
  else
    let board1 :=
      if cell.markedBy = .none then
        setCell g.board row col { cell with markedBy := player }
      else if cell.secondMark = .none then
        setCell g.board row col { cell with secondMark := player, times := 1 }
      else g.board
    let newMarks := rowMarks + 1
    let newUnlocked :=
      if (row : Int) = unlockedRow ∧ unlockedRow < 4 ∧
          newMarks ≥ g.phaseConfig.unlockThreshold
      then unlockedRow + 1 else unlockedRow
    let g1 :=
      if player = .red then
        { g with board := board1,
                 redRowMarks := updRow g.redRowMarks row newMarks,
                 redUnlockedRow := newUnlocked }
      else
        { g with board := board1,
                 blueRowMarks := updRow g.blueRowMarks row newMarks,
                 blueUnlockedRow := newUnlocked }
    let g2 := if g1.bingoAchiever = .none then (g1.checkPhaseBingo).1 else g1
    (g2, Option.none)

/-- `CanSettle`: at least 2 marks in the last row. -/
def Game.canSettle (g : Game) (player : PlayerColor) : Bool :=
  (if player = .red then g.redRowMarks 4 else g.blueRowMarks 4) ≥ 2

/-- `CalculatePhaseScore`: row scores for primary claims, second-half scores
for secondary claims, plus the Bingo bonus and the first-settler bonus. -/
def Game.calculatePhaseScore (g : Game) : Int × Int :=
  let base := (List.range 5).foldl (fun acc row =>
    (List.range 5).foldl (fun acc2 col =>
      let cell := g.board row col
      let r1 := if cell.markedBy = .red then g.phaseConfig.rowScores row else 0
      let b1 := if cell.markedBy = .blue then g.phaseConfig.rowScores row else 0
      let r2 := if cell.secondMark = .red then g.phaseConfig.secondHalfScores row else 0
      let b2 := if cell.secondMark = .blue then g.phaseConfig.secondHalfScores row else 0
      (acc2.1 + r1 + r2, acc2.2 + b1 + b2)) acc) ((0 : Int), (0 : Int))
  let withBingo :=
    if g.bingoAchiever = .red then (base.1 + g.phaseConfig.bingoBonus, base.2)
    else if g.bingoAchiever = .blue then (base.1, base.2 + g.phaseConfig.bingoBonus)
    else base
  if g.firstSettler = .red then (withBingo.1 + g.phaseConfig.finalBonus, withBingo.2)
  else if g.firstSettler = .blue then (withBingo.1, withBingo.2 + g.phaseConfig.finalBonus)
  else withBingo

def cellIndices : List (Nat × Nat) :=
  (List.range 5).flatMap (fun r => (List.range 5).map (fun c => (r, c)))

def Game.holdsCell (g : Game) (c : PlayerColor) (rc : Nat × Nat) : Bool :=
  (g.board rc.1 rc.2).markedBy = c ∨ (g.board rc.1 rc.2).secondMark = c

/-- `CountMarks`: total claims (markedBy or secondMark) per color over the board. -/
def Game.countMarks (g : Game) : Nat × Nat :=
  ((cellIndices.filter (g.holdsCell .red)).length,
   (cellIndices.filter (g.holdsCell .blue)).length)

/-- `checkPhaseWin`: compute scores, break ties in favor of the first settler,
finish the game with reason phase. -/
def Game.checkPhaseWin (g : Game) : Game :=
  let scores := g.calculatePhaseScore
  let w := if scores.1 > scores.2 then PlayerColor.red
           else if scores.2 > scores.1 then PlayerColor.blue
           else g.firstSettler
  { g with winner := some ⟨w, .phase, scores.1, scores.2⟩, status := .finished }

/-- `Settle`: first settler must satisfy CanSettle; the second settles freely. -/
def Game.settle (g : Game) (player : PlayerColor) : Game × Option GErr :=
  if g.status ≠ .playing then (g, some .gameNotStarted)
  else if player = .red ∧ g.redSettled then (g, some .alreadySettled)
  else if player = .blue ∧ g.blueSettled then (g, some .alreadySettled)
  else if g.firstSettler = .none ∧ ¬ g.canSettle player then (g, some .cannotSettleYet)
  else
    let g1 := if g.firstSettler = .none then { g with firstSettler := player } else g
    let g2 := if player = .red then { g1 with redSettled := true }
              else { g1 with blueSettled := true }
    if g2.redSettled ∧ g2.blueSettled then (g2.checkPhaseWin, Option.none)
    else (g2, Option.none)

/-- `checkLineWin`: a line completely held (markedBy) by a single color. -/
def Game.checkLineWin (g : Game) (startRow startCol dRow dCol : Int) : PlayerColor :=
  let firstCell := g.board startRow.toNat startCol.toNat
  if firstCell.markedBy = .none then .none
  else if (List.range 4).all (fun i =>
      (g.board (startRow + ((i : Int) + 1) * dRow).toNat
               (startCol + ((i : Int) + 1) * dCol).toNat).markedBy
        = firstCell.markedBy)
  then firstCell.markedBy else .none

/-- `newBingoWinner`. -/
def Game.newBingoWinner (g : Game) (w : PlayerColor) : Winner :=
  let counts := g.countMarks
  ⟨w, .bingo, (counts.1 : Int), (counts.2 : Int)⟩

/-- `checkFullBoard`: all 25 cells claimed; higher count wins; tie is colorless. -/
def Game.checkFullBoard (g : Game) : Option Winner :=
  let counts := g.countMarks
  if counts.1 + counts.2 < 25 then Option.none
  else
    let w := if counts.1 > counts.2 then PlayerColor.red
             else if counts.2 > counts.1 then PlayerColor.blue
             else PlayerColor.none
    some ⟨w, .fullBoard, (counts.1 : Int), (counts.2 : Int)⟩

/-- The 12 lines scanned by `checkNormalWin`, in source order:
5 rows, 5 columns, main diagonal, anti-diagonal. -/
def normalWinLines : List (Int × Int × Int × Int) :=
  [(0, 0, 0, 1), (1, 0, 0, 1), (2, 0, 0, 1), (3, 0, 0, 1), (4, 0, 0, 1),
   (0, 0, 1, 0), (0, 1, 1, 0), (0, 2, 1, 0), (0, 3, 1, 0), (0, 4, 1, 0),
   (0, 0, 1, 1), (0, 4, 1, -1)]

/-- `checkNormalWin`: first completed line in source order wins, else full-board check. -/
def Game.checkNormalWin (g : Game) : Option Winner :=
  match normalWinLines.findSome? (fun l =>
      let w := g.checkLineWin l.1 l.2.1 l.2.2.1 l.2.2.2
      if w = PlayerColor.none then Option.none else some w) with
  | some w => some (g.newBingoWinner w)
  | Option.none => g.checkFullBoard

/-- `checkBlackoutWin`: first color to 25 total claims. -/
def Game.checkBlackoutWin (g : Game) : Option Winner :=
  let counts := g.countMarks
  if counts.1 = 25 then some ⟨.red, .blackout, (counts.1 : Int), (counts.2 : Int)⟩
  else if counts.2 = 25 then some ⟨.blue, .blackout, (counts.1 : Int), (counts.2 : Int)⟩
  else Option.none

/-- `CheckWin`: derive winner/finished for normal and blackout; a finished game that
no longer qualifies reverts to playing; phase is untouched. -/
def Game.checkWin (g : Game) : Game :=
  match g.rule with
  | .phase => g
  | .normal =>
      match g.checkNormalWin with
      | some w => { g with status := .finished, winner := some w }
      | Option.none =>
          let g1 := if g.status = .finished then { g with status := .playing } else g
          { g1 with winner := Option.none }
  | .blackout =>
      match g.checkBlackoutWin with
      | some w => { g with status := .finished, winner := some w }
      | Option.none =>
          let g1 := if g.status = .finished then { g with status := .playing } else g
          { g1 with winner := Option.none }

/-- `MarkCell`: status and bounds checks, then per-rule dispatch, then win check
for non-phase rules. -/
def Game.markCell (g : Game) (row col : Int) (player : PlayerColor) :
    Game × Option GErr :=
  if g.status = .waiting then (g, some .gameNotStarted)
  else if g.status = .finished then (g, some .gameFinished)
  else if row < 0 ∨ row > 4 ∨ col < 0 ∨ col > 4 then (g, some .invalidPosition)
  else
    let res := match g.rule with
      | .normal => g.markNormal row.toNat col.toNat player
      | .blackout => g.markBlackout row.toNat col.toNat player
      | .phase => g.markPhase row.toNat col.toNat player
    match res.2 with
    | some e => (res.1, some e)
    | Option.none =>
        if res.1.rule ≠ .phase then (res.1.checkWin, Option.none)
        else (res.1, Option.none)

/-- `MarkCellForce`: referee override; unconditionally overwrites markedBy and
clears secondMark/times; only rejects while waiting or out of bounds. -/
def Game.markCellForce (g : Game) (row col : Int) (player : PlayerColor) :
    Game × Option GErr :=
  if g.status = .waiting then (g, some .gameNotStarted)
  else if row < 0 ∨ row > 4 ∨ col < 0 ∨ col > 4 then (g, some .invalidPosition)
  else
    let cell := g.board row.toNat col.toNat
    let forced := { cell with
      markedBy := player, secondMark := PlayerColor.none, times := 0 }
    let g1 := { g with board := setCell g.board row.toNat col.toNat forced }
    (if g1.rule ≠ .phase then g1.checkWin else g1, Option.none)

/-- The backward frontier rollback loop of `recheckPhaseRowUnlock`:
while the frontier is positive and the preceding row is under threshold,
step the frontier down. -/
def rollbackFrontier (rowMarks : Nat → Int) (thr : Int) : Nat → Nat
  | 0 => 0
  | n + 1 => if rowMarks n ≥ thr then n + 1 else rollbackFrontier rowMarks thr n

/-- `recheckPhaseRowUnlock`. -/
def Game.recheckPhaseRowUnlock (g : Game) (player : PlayerColor) : Game :=
  if player = .red then
    if g.redUnlockedRow ≤ 0 then g
    else { g with redUnlockedRow :=
            (rollbackFrontier g.redRowMarks g.phaseConfig.unlockThreshold
              g.redUnlockedRow.toNat : Nat) }
  else
    if g.blueUnlockedRow ≤ 0 then g
    else { g with blueUnlockedRow :=
            (rollbackFrontier g.blueRowMarks g.phaseConfig.unlockThreshold
              g.blueUnlockedRow.toNat : Nat) }

/-- `isBingoLineValid`: line 0-4 is a column, 5 the main diagonal, 6 the
anti-diagonal; the achiever must hold (markedBy or secondMark) every cell. -/
def Game.isBingoLineValid (g : Game) (lineIndex : Int) (achiever : PlayerColor) : Bool :=
  if 0 ≤ lineIndex ∧ lineIndex < 5 then
    (List.range 5).all (fun i =>
      (g.board i lineIndex.toNat).markedBy = achiever ∨
      (g.board i lineIndex.toNat).secondMark = achiever)
  else if lineIndex = 5 then
    (List.range 5).all (fun i =>
      (g.board i i).markedBy = achiever ∨ (g.board i i).secondMark = achiever)
  else if lineIndex = 6 then
    (List.range 5).all (fun i =>
      (g.board i (4 - i)).markedBy = achiever ∨
      (g.board i (4 - i)).secondMark = achiever)
  else false

/-- `recheckPhaseBingo`: keep a still-valid record, otherwise clear it and
re-run the original scan. -/
def Game.recheckPhaseBingo (g : Game) : Game :=
  if g.bingoAchiever = .none then g
  else if g.isBingoLineValid g.bingoLine g.bingoAchiever then g
  else
    let g1 := { g with bingoAchiever := PlayerColor.none, bingoLine := -1 }
    (g1.checkPhaseBingo).1

/-- `UnmarkCell` (second revision): for phase, decrement the row counters of the
colors holding the cell, re-derive their frontiers and re-validate the Bingo —
all of this happens BEFORE the cell itself is cleared, exactly as in the
source — then zero the cell and re-derive win state for non-phase rules. -/
def Game.unmarkCell (g : Game) (row col : Int) : Game × Option GErr :=
  if g.status = .waiting then (g, some .gameNotStarted)
  else if row < 0 ∨ row > 4 ∨ col < 0 ∨ col > 4 then (g, some .invalidPosition)
  else
    let r := row.toNat
    let c := col.toNat
    let cell := g.board r c
    let g1 :=
      if g.rule = .phase then
        let resA : Game × Bool × Bool :=
          if cell.markedBy = .red ∧ g.redRowMarks r > 0 then
            ({ g with redRowMarks := updRow g.redRowMarks r (g.redRowMarks r - 1) },
             true, false)
          else if cell.markedBy = .blue ∧ g.blueRowMarks r > 0 then
            ({ g with blueRowMarks := updRow g.blueRowMarks r (g.blueRowMarks r - 1) },
             false, true)
          else (g, false, false)
        let ga := resA.1
        let resB : Game × Bool × Bool :=
          if cell.secondMark = .red ∧ ga.redRowMarks r > 0 then
            ({ ga with redRowMarks := updRow ga.redRowMarks r (ga.redRowMarks r - 1) },
             true, false)
          else if cell.secondMark = .blue ∧ ga.blueRowMarks r > 0 then
            ({ ga with blueRowMarks := updRow ga.blueRowMarks r (ga.blueRowMarks r - 1) },
             false, true)
          else (ga, false, false)
        let gb := resB.1
        let gc := if resA.2.1 ∨ resB.2.1 then gb.recheckPhaseRowUnlock .red else gb
        let gd := if resA.2.2 ∨ resB.2.2 then gc.recheckPhaseRowUnlock .blue else gc
        gd.recheckPhaseBingo
      else g
    let cell1 := g1.board r c
    let zeroed := { cell1 with
      markedBy := PlayerColor.none, secondMark := PlayerColor.none, times := 0 }
    let g2 := { g1 with board := setCell g1.board r c zeroed }
    (if g2.rule ≠ .phase then g2.checkWin else g2, Option.none)

/-- `ClearCellMark` (second revision): remove only the named color's claim,
promoting a remaining second mark; for phase, decrement the cleared color's
row counter, re-derive its frontier and re-validate the Bingo; no-op when the
color holds no claim on the cell. -/
def Game.clearCellMark (g : Game) (row col : Int) (player : PlayerColor) :
    Game × Option GErr :=
  if g.status = .waiting then (g, some .gameNotStarted)
  else if row < 0 ∨ row > 4 ∨ col < 0 ∨ col > 4 then (g, some .invalidPosition)
  else
    let r := row.toNat
    let c := col.toNat
    let cell := g.board r c
    let decTimes := if cell.times > 0 then cell.times - 1 else cell.times
    let promoted := { cell with
      markedBy := cell.secondMark, secondMark := PlayerColor.none, times := decTimes }
    let secondCleared := { cell with secondMark := PlayerColor.none, times := decTimes }
    let res1 : Game × Bool :=
      if cell.markedBy = player then
        ({ g with board := setCell g.board r c promoted }, true)
      else if cell.secondMark = player then
        ({ g with board := setCell g.board r c secondCleared }, true)
      else (g, false)
    let g1 := res1.1
    let g2 :=
      if g1.rule = .phase ∧ res1.2 then
        let ga :=
          if player = .red ∧ g1.redRowMarks r > 0 then
            { g1 with redRowMarks := updRow g1.redRowMarks r (g1.redRowMarks r - 1) }
          else if player = .blue ∧ g1.blueRowMarks r > 0 then
            { g1 with blueRowMarks := updRow g1.blueRowMarks r (g1.blueRowMarks r - 1) }
          else g1
        ((ga.recheckPhaseRowUnlock player).recheckPhaseBingo)
      else g1
    (g2, Option.none)

/-- `SetCellText`. -/
def Game.setCellText (g : Game) (row col : Int) (text : String) :
    Game × Option GErr :=
  if row < 0 ∨ row > 4 ∨ col < 0 ∨ col > 4 then (g, some .invalidPosition)
  else
    let cell := g.board row.toNat col.toNat
    ({ g with board := setCell g.board row.toNat col.toNat { cell with text := text } },
     Option.none)

/-- `SetAllCellTexts`. -/
def Game.setAllCellTexts (g : Game) (texts : List String) : Game × Option GErr :=
  if texts.length ≠ 25 then (g, some .invalidTextsLength)
  else
    ({ g with board := fun r c =>
        if r < 5 ∧ c < 5 then { g.board r c with text := texts.getD (r * 5 + c) "" }
        else g.board r c },
     Option.none)

/-- `Reset`: board and tracking back to initial values; rule and config kept. -/
def Game.reset (g : Game) : Game :=
  { g with board := newBoard, status := .waiting, winner := Option.none,
           redRowMarks := fun _ => 0, blueRowMarks := fun _ => 0,
           redUnlockedRow := 0, blueUnlockedRow := 0,
           bingoAchiever := .none, bingoLine := -1,
           redSettled := false, blueSettled := false, firstSettler := .none }

/-- `UserRole` from the user package. -/
inductive UserRole where
  | spectator
  | player
  | referee
deriving DecidableEq

/-- `User` from the user package (the Go user.PlayerColor enum has the same
three values as game.PlayerColor and the room code converts by numeric cast,
so a single `PlayerColor` type models both). -/
structure User where
  id : String
  name : String
  role : UserRole
  playerColor : PlayerColor
  roomId : String
deriving DecidableEq

/-- `Room` from the room package.  The Go `Users map[string]*user.User` plus
`UserOrder []string` pair is modelled as an association list in join order
plus the order list. -/
structure Room where
  id : String
  name : String
  password : String
  ownerId : String
  game : Game
  users : List User
  userOrder : List String

/-- Lookup in the Go user map. -/
def Room.findUser (r : Room) (uid : String) : Option User :=
  r.users.find? (fun u => u.id = uid)

/-- `NewRoom`: fresh normal-rule game, the given owner id, no users. -/
def newRoom (id name password ownerId : String) : Room where
  id := id
  name := name
  password := password
  ownerId := ownerId
  game := newGame .normal
  users := []
  userOrder := []

/-- `Room.AddUser`: no-op when already present; resets the joining user to
spectator/none; when the room's ownerId is empty the joining user becomes
owner and referee. -/
def Room.addUser (r : Room) (u : User) : Room :=
  match r.findUser u.id with
  | some _ => r
  | Option.none =>
    let u1 := { u with roomId := r.id, role := UserRole.spectator,
                       playerColor := PlayerColor.none }
    if r.ownerId = "" then
      { r with ownerId := u1.id,
               users := r.users ++ [{ u1 with role := UserRole.referee }],
               userOrder := r.userOrder ++ [u1.id] }
    else
      { r with users := r.users ++ [u1], userOrder := r.userOrder ++ [u1.id] }

/-- `Room.MarkCell`: spectators rejected; players restricted to their own
color; referees use MarkCellForce for normal but the ordinary constrained
MarkCell path for blackout and phase. -/
def Room.markCell (r : Room) (userID : String) (row col : Int)
    (color : PlayerColor) : Room × Option GErr :=
  match r.findUser userID with
  | Option.none => (r, some .userNotFound)
  | some u =>
    match u.role with
    | .referee =>
        if r.game.rule = .blackout ∨ r.game.rule = .phase then
          let res := r.game.markCell row col color
          ({ r with game := res.1 }, res.2)
        else
          let res := r.game.markCellForce row col color
          ({ r with game := res.1 }, res.2)
    | .player =>
        if color ≠ u.playerColor then (r, some .canOnlyMarkOwnColor)
        else
          let res := r.game.markCell row col color
          ({ r with game := res.1 }, res.2)
    | .spectator => (r, some .spectatorsCannotMark)

/-- `Room.UnmarkCell`: referee-only. -/
def Room.unmarkCell (r : Room) (userID : String) (row col : Int) :
    Room × Option GErr :=
  match r.findUser userID with
  | Option.none => (r, some .userNotFound)
  | some u =>
    if u.role ≠ .referee then (r, some .onlyRefereeCanUnmark)
    else
      let res := r.game.unmarkCell row col
      ({ r with game := res.1 }, res.2)

/-- `Room.ClearCellMark`: spectators rejected; players only their own color. -/
def Room.clearCellMark (r : Room) (userID : String) (row col : Int)
    (color : PlayerColor) : Room × Option GErr :=
  match r.findUser userID with
  | Option.none => (r, some .userNotFound)
  | some u =>
    if u.role = .spectator then (r, some .spectatorsCannotClear)
    else if u.role = .player ∧ color ≠ u.playerColor then
      (r, some .canOnlyClearOwnColor)
    else
      let res := r.game.clearCellMark row col color
      ({ r with game := res.1 }, res.2)

/-- `Room.Settle`: spectators rejected; players only for themselves. -/
def Room.settle (r : Room) (callerID : String) (color : PlayerColor) :
    Room × Option GErr :=
  match r.findUser callerID with
  | Option.none => (r, some .userNotFound)
  | some u =>
    match u.role with
    | .referee =>
        let res := r.game.settle color
        ({ r with game := res.1 }, res.2)
    | .player =>
        if u.playerColor ≠ color then (r, some .canOnlySettleSelf)
        else
          let res := r.game.settle color
          ({ r with game := res.1 }, res.2)
    | .spectator => (r, some .spectatorsCannotSettle)

/-- `Room.SetGameRule`: owner-only, rejected while playing; replaces the Game
wholesale with a fresh one carrying the explicit config. -/
def Room.setGameRule (r : Room) (callerID : String) (rule : GameRule)
    (config : PhaseConfig) : Room × Option GErr :=
  if r.ownerId ≠ callerID then (r, some .notOwner)
  else if r.game.status = .playing then (r, some .gameInProgress)
  else ({ r with game := { newGame rule with phaseConfig := config } }, Option.none)

/-- `Room.StartGame`: owner-only. -/
def Room.startGame (r : Room) (callerID : String) : Room × Option GErr :=
  if r.ownerId ≠ callerID then (r, some .notOwner)
  else
    let res := r.game.start
    ({ r with game := res.1 }, res.2)

/-- `Room.ResetGame`: owner-only. -/
def Room.resetGame (r : Room) (callerID : String) : Room × Option GErr :=
  if r.ownerId ≠ callerID then (r, some .notOwner)
  else ({ r with game := r.game.reset }, Option.none)

/-- `Room.SetCellText`: owner-only and only while waiting. -/
def Room.setCellText (r : Room) (callerID : String) (row col : Int)
    (text : String) : Room × Option GErr :=
  if r.ownerId ≠ callerID then (r, some .notOwner)
  else if r.game.status ≠ .waiting then (r, some .cellTextOnlyWaiting)
  else
    let res := r.game.setCellText row col text
    ({ r with game := res.1 }, res.2)

/-- `Room.SetAllCellTexts`: owner-only and only while waiting. -/
def Room.setAllCellTexts (r : Room) (callerID : String) (texts : List String) :
    Room × Option GErr :=
  if r.ownerId ≠ callerID then (r, some .notOwner)
  else if r.game.status ≠ .waiting then (r, some .cellTextOnlyWaiting)
  else
    let res := r.game.setAllCellTexts texts
    ({ r with game := res.1 }, res.2)

/-- What the websocket handler sends after dispatching a room mutation:
either a structured error to the requesting connection only, or one state
broadcast to every room member. -/
inductive Response where
  | errorOnly (code : Int)
  | broadcast
deriving DecidableEq

/-- `handleMarkCell` from handler.go: on error, `sendError` to the requester
and return without broadcasting; on success, `broadcastRoomState`. -/
def handleMarkCell (r : Room) (userID : String) (row col : Int)
    (color : PlayerColor) : Room × Response :=
  let res := r.markCell userID row col color
  match res.2 with
  | some _ => (res.1, .errorOnly 403)
  | Option.none => (res.1, .broadcast)

/-- The three cell-level mutations quantified over by the reachability claims. -/
inductive GameOp where
  | mark (row col : Int) (player : PlayerColor)
  | unmark (row col : Int)
  | clear (row col : Int) (player : PlayerColor)

def Game.applyOp (g : Game) : GameOp → Game
  | .mark row col p => (g.markCell row col p).1
  | .unmark row col => (g.unmarkCell row col).1
  | .clear row col p => (g.clearCellMark row col p).1

def Game.runOps (g : Game) (ops : List GameOp) : Game :=
  ops.foldl Game.applyOp g

/-- Clear operations that name an actual color; the handler derives the color
from `PlayerColorFromString`, which a player's own color always satisfies. -/
def opClearColored : GameOp → Prop
  | .clear _ _ p => p ≠ PlayerColor.none
  | _ => True

/-- A freshly started game of the given rule and config, as produced by
`SetGameRule` (fresh game, explicit config) followed by `StartGame`. -/
def mkStartedGame (rule : GameRule) (cfg : PhaseConfig) : Game :=
  (Game.start { newGame rule with phaseConfig := cfg }).1

/-- The specification's characterization of the unlock frontier, written from
the spec's words for comparison with the implementation: the largest row
index `r` within board bounds such that every row below `r` meets the
unlock threshold. -/
def specLargestUnlockedRow (rowMarks : Nat → Int) (thr : Int) : Nat :=
  if rowMarks 0 < thr then 0
  else if rowMarks 1 < thr then 1
  else if rowMarks 2 < thr then 2
  else if rowMarks 3 < thr then 3
  else 4

/-- Modelled from the spec: the room-lifecycle policy of §6 ("an empty room
(zero connected users) is deleted after a configurable idle TTL (0 disables
eviction)").  The TTL-aware revision of the websocket handler is not present
under src/ — the included handler.go predates the `NewHandler(store, roomTTL)`
signature used by cmd/server/main.go — so the eviction policy is modelled
here from the spec's words: a room records the instant it became empty, and
a periodic sweep deletes it only once the idle TTL has elapsed, with TTL 0
disabling eviction entirely. -/
structure RoomLifecycle where
  emptySince : Option Int
  ttl : Int

/-- Modelled from the spec: the last member leaving marks the room empty at
the current instant; the room itself is retained. -/
def markEmpty (l : RoomLifecycle) (now : Int) : RoomLifecycle :=
  { l with emptySince := some now }

/-- Modelled from the spec: the sweep deletes an empty room only when the
TTL is positive and at least TTL time has elapsed since it became empty. -/
def sweepDeletes (l : RoomLifecycle) (now : Int) : Bool :=
  (l.ttl > 0 : Bool) &&
    (match l.emptySince with
     | some t => (now - t ≥ l.ttl : Bool)
     | Option.none => false)

/-! ### Concrete sample states used by witnesses and counterexamples -/

/-- A finished normal-rule game with one mark and a recorded winner. -/
def finishedSample : Game :=
  { newGame .normal with
      status := GameStatus.finished,
      winner := some ⟨PlayerColor.red, WinReason.bingo, 3, 2⟩,
      board := setCell newBoard 0 0 { emptyCell with markedBy := PlayerColor.red } }

/-- An empty room owned by an absent user (for error-path witnesses). -/
def sampleRoom : Room := newRoom "r1" "Room" "" "owner1"

/-- The user who creates a room and is added to it right afterwards. -/
def creatorUser : User := ⟨"u1", "Alice", UserRole.spectator, PlayerColor.none, ""⟩

/-- The room produced by the CreateRoom handler path: `CreateRoom` passes the
creator's id as ownerID to `NewRoom`, then `AddUser` adds the creator. -/
def c3room : Room := (newRoom "room1" "Room" "" "u1").addUser creatorUser

/-- Marks that drive the red frontier to row 4 and then clear one mark in
row 0, leaving a hole below the frontier. -/
def c1ops : List GameOp :=
  [.mark 0 0 .red, .mark 0 1 .red, .mark 1 0 .red, .mark 1 1 .red,
   .mark 2 0 .red, .mark 2 1 .red, .mark 3 0 .red, .mark 3 1 .red,
   .clear 0 0 .red]

def c1state : Game := (mkStartedGame .phase defaultPhaseConfig).runOps c1ops

/-- A phase game after a single first-slot mark. -/
def c2state : Game :=
  (mkStartedGame .phase defaultPhaseConfig).runOps [.mark 0 0 .red]

/-- Marks completing red's column 0 (Bingo line 0), then an UnmarkCell that
removes one cell of that column. -/
def c6ops : List GameOp :=
  [.mark 0 0 .red, .mark 0 1 .red, .mark 1 0 .red, .mark 1 1 .red,
   .mark 2 0 .red, .mark 2 1 .red, .mark 3 0 .red, .mark 3 1 .red,
   .mark 4 0 .red, .unmark 0 0]

def c6state : Game := (mkStartedGame .phase defaultPhaseConfig).runOps c6ops

/-- A fresh started phase game (no marks). -/
def g4a : Game := mkStartedGame .phase defaultPhaseConfig

/-- Red has two marks in the last row. -/
def g4b : Game := { g4a with redRowMarks := updRow g4a.redRowMarks 4 2 }

/-- Red already settled first. -/
def g4c : Game := { g4b with firstSettler := PlayerColor.red, redSettled := true }

/-- A phase game where red settled first; blue's settle finishes it. -/
def g5 : Game :=
  { mkStartedGame .phase defaultPhaseConfig with
      firstSettler := PlayerColor.red, redSettled := true }

def spectatorUser : User := ⟨"s1", "S", UserRole.spectator, PlayerColor.none, "r1"⟩

def redPlayerUser : User := ⟨"p1", "P", UserRole.player, PlayerColor.red, "r1"⟩

def refereeUser : User := ⟨"ref1", "R", UserRole.referee, PlayerColor.none, "r1"⟩

/-- A blackout-rule room with a spectator, a red player and a referee. -/
def c7room : Room :=
  { newRoom "r1" "Room" "" "owner1" with
      users := [spectatorUser, redPlayerUser, refereeUser],
      userOrder := ["s1", "p1", "ref1"],
      game := mkStartedGame .blackout defaultPhaseConfig }

/-- The same room under the normal rule. -/
def c7roomN : Room := { c7room with game := mkStartedGame .normal defaultPhaseConfig }

/-- A room whose ownerId is empty at creation (as after a storage restore,
where membership is not persisted). -/
def restoredRoom : Room := newRoom "r2" "R2" "" ""

/-- The specification's scoring formula, written from the spec's words: the
sum of `rowScores[row]` over primary claims and `secondHalfScores[row]` over
secondary claims, plus the Bingo bonus for the achiever and the final bonus
for the first settler. -/
def specPhaseScore (g : Game) (c : PlayerColor) : Int :=
  (Finset.sum (Finset.range 5) fun r =>
    Finset.sum (Finset.range 5) fun cl =>
      ((if (g.board r cl).markedBy = c then g.phaseConfig.rowScores r else 0) +
       (if (g.board r cl).secondMark = c then g.phaseConfig.secondHalfScores r else 0)))
  + (if g.bingoAchiever = c then g.phaseConfig.bingoBonus else 0)
  + (if g.firstSettler = c then g.phaseConfig.finalBonus else 0)

/-- The state `Settle` builds on its success path before the both-settled
check (firstSettler recorded if fresh, the caller's settled flag set). -/
def settleCore (g : Game) (c : PlayerColor) : Game :=
  let g1 := if g.firstSettler = PlayerColor.none then { g with firstSettler := c } else g
  if c = PlayerColor.red then { g1 with redSettled := true }
  else { g1 with blueSettled := true }

/-- The frontier invariant the phase rule actually maintains for one color:
the unlocked row is within board bounds and, when positive, the immediately
preceding row meets the unlock threshold. -/
def frontierOk (ur : Int) (marks : Nat → Int) (thr : Int) : Prop :=
  0 ≤ ur ∧ ur ≤ 4 ∧ (ur = 0 ∨ marks (ur - 1).toNat ≥ thr)

def Game.frontierInv (g : Game) : Prop :=
  frontierOk g.redUnlockedRow g.redRowMarks g.phaseConfig.unlockThreshold ∧
  frontierOk g.blueUnlockedRow g.blueRowMarks g.phaseConfig.unlockThreshold

/-- Blackout cell invariant: `times` counts the claims on the cell. -/
def cellTimesBlackoutOk (cell : Cell) : Prop :=
  cell.times = (if cell.markedBy = PlayerColor.none then 0 else 1)
             + (if cell.secondMark = PlayerColor.none then 0 else 1)

/-- A cell never has a second claim without a first. -/
def cellPromoteOk (cell : Cell) : Prop :=
  cell.markedBy = PlayerColor.none → cell.secondMark = PlayerColor.none

/-- Phase cell invariant: `times` is only the has-second-mark flag. -/
def cellTimesPhaseOk (cell : Cell) : Prop :=
  cell.times = (if cell.secondMark = PlayerColor.none then 0 else 1)

def Game.blackoutTimesInv (g : Game) : Prop :=
  ∀ r c : Nat, cellTimesBlackoutOk (g.board r c) ∧ cellPromoteOk (g.board r c)

def Game.phaseTimesInv (g : Game) : Prop :=
  ∀ r c : Nat, cellTimesPhaseOk (g.board r c)

/-! ### Helper lemmas -/

/-- Two game states agreeing on everything except the Bingo record. -/
def SameCore (g1 g2 : Game) : Prop :=
  g1.board = g2.board ∧ g1.rule = g2.rule ∧ g1.phaseConfig = g2.phaseConfig ∧
  g1.status = g2.status ∧ g1.winner = g2.winner ∧
  g1.redRowMarks = g2.redRowMarks ∧ g1.blueRowMarks = g2.blueRowMarks ∧
  g1.redUnlockedRow = g2.redUnlockedRow ∧ g1.blueUnlockedRow = g2.blueUnlockedRow ∧
  g1.redSettled = g2.redSettled ∧ g1.blueSettled = g2.blueSettled ∧
  g1.firstSettler = g2.firstSettler

theorem sameCore_refl (g : Game) : SameCore g g := by
  refine ⟨rfl, rfl, rfl, rfl, rfl, rfl, rfl, rfl, rfl, rfl, rfl, rfl⟩

theorem sameCore_trans {g1 g2 g3 : Game} (h1 : SameCore g1 g2) (h2 : SameCore g2 g3) :
    SameCore g1 g3 := by
  obtain ⟨a1, a2, a3, a4, a5, a6, a7, a8, a9, a10, a11, a12⟩ := h1
  obtain ⟨b1, b2, b3, b4, b5, b6, b7, b8, b9, b10, b11, b12⟩ := h2
  exact ⟨a1.trans b1, a2.trans b2, a3.trans b3, a4.trans b4, a5.trans b5,
         a6.trans b6, a7.trans b7, a8.trans b8, a9.trans b9, a10.trans b10,
         a11.trans b11, a12.trans b12⟩

theorem sameCore_checkPhaseLineBingo (g : Game) (a b c d l : Int) :
    SameCore (g.checkPhaseLineBingo a b c d l).1 g := by
  unfold Game.checkPhaseLineBingo
  dsimp only
  split
  · exact sameCore_refl _
  · split
    · exact sameCore_refl _
    · exact sameCore_refl _

theorem sameCore_checkPhaseBingoCols (ls : List Nat) :
    ∀ g : Game, SameCore (g.checkPhaseBingoCols ls).1 g := by
  induction ls with
  | nil => intro g; exact sameCore_refl g
  | cons col rest ih =>
      intro g
      unfold Game.checkPhaseBingoCols
      dsimp only
      split
      · exact sameCore_checkPhaseLineBingo g _ _ _ _ _
      · exact sameCore_trans (ih _) (sameCore_checkPhaseLineBingo g _ _ _ _ _)

theorem sameCore_checkPhaseBingo (g : Game) : SameCore (g.checkPhaseBingo).1 g := by
  unfold Game.checkPhaseBingo
  dsimp only
  split
  · exact sameCore_checkPhaseBingoCols _ g
  · split
    · exact sameCore_trans (sameCore_checkPhaseLineBingo _ _ _ _ _ _)
        (sameCore_checkPhaseBingoCols _ g)
    · split
      · exact sameCore_trans (sameCore_checkPhaseLineBingo _ _ _ _ _ _)
          (sameCore_trans (sameCore_checkPhaseLineBingo _ _ _ _ _ _)
            (sameCore_checkPhaseBingoCols _ g))
      · exact sameCore_trans (sameCore_checkPhaseLineBingo _ _ _ _ _ _)
          (sameCore_trans (sameCore_checkPhaseLineBingo _ _ _ _ _ _)
            (sameCore_checkPhaseBingoCols _ g))

theorem sameCore_recheckPhaseBingo (g : Game) : SameCore (g.recheckPhaseBingo) g := by
  unfold Game.recheckPhaseBingo
  split
  · exact sameCore_refl g
  · split
    · exact sameCore_refl g
    · exact sameCore_trans
        (sameCore_checkPhaseBingo { g with bingoAchiever := PlayerColor.none, bingoLine := -1 })
        (sameCore_refl g)

theorem rollbackFrontier_le (m : Nat → Int) (thr : Int) :
    ∀ n, rollbackFrontier m thr n ≤ n := by
  intro n
  induction n with
  | zero => simp [rollbackFrontier]
  | succ k ih =>
      unfold rollbackFrontier
      split
      · exact le_refl _
      · exact le_trans ih (Nat.le_succ k)

theorem rollbackFrontier_spec (m : Nat → Int) (thr : Int) :
    ∀ n, rollbackFrontier m thr n = 0 ∨ m (rollbackFrontier m thr n - 1) ≥ thr := by
  intro n
  induction n with
  | zero => simp [rollbackFrontier]
  | succ k ih =>
      unfold rollbackFrontier
      split
      · next h => exact Or.inr (by simpa using h)
      · exact ih

/-- `CalculatePhaseScore` computes exactly the specification's formula. -/
theorem calc_eq_spec (g : Game) :
    g.calculatePhaseScore
      = (specPhaseScore g PlayerColor.red, specPhaseScore g PlayerColor.blue) := by
  unfold Game.calculatePhaseScore specPhaseScore
  simp only [List.range_succ, List.foldl_append, List.foldl_cons, List.foldl_nil,
    List.range_zero, Finset.sum_range_succ, Finset.sum_range_zero]
  apply Prod.ext <;> dsimp only <;>
  rcases g.bingoAchiever <;> rcases g.firstSettler <;> simp <;> ring

/-- `checkPhaseWin` finishes the game with the spec scores, ties broken in
favor of the first settler. -/
theorem checkPhaseWin_spec (g : Game) :
    (g.checkPhaseWin).status = GameStatus.finished ∧
    (g.checkPhaseWin).winner = some
      { winner := if specPhaseScore g PlayerColor.red > specPhaseScore g PlayerColor.blue
                    then PlayerColor.red
                  else if specPhaseScore g PlayerColor.blue > specPhaseScore g PlayerColor.red
                    then PlayerColor.blue
                  else g.firstSettler,
        reason := WinReason.phase,
        redScore := specPhaseScore g PlayerColor.red,
        blueScore := specPhaseScore g PlayerColor.blue } := by
  unfold Game.checkPhaseWin
  dsimp only
  rw [calc_eq_spec g]
  exact ⟨rfl, rfl⟩

/-- `CheckWin` only ever writes `status` and `winner`. -/
theorem checkWin_fields (g : Game) :
    (g.checkWin).board = g.board ∧ (g.checkWin).rule = g.rule ∧
    (g.checkWin).phaseConfig = g.phaseConfig ∧
    (g.checkWin).redRowMarks = g.redRowMarks ∧
    (g.checkWin).blueRowMarks = g.blueRowMarks ∧
    (g.checkWin).redUnlockedRow = g.redUnlockedRow ∧
    (g.checkWin).blueUnlockedRow = g.blueUnlockedRow ∧
    (g.checkWin).bingoAchiever = g.bingoAchiever ∧
    (g.checkWin).bingoLine = g.bingoLine ∧
    (g.checkWin).redSettled = g.redSettled ∧
    (g.checkWin).blueSettled = g.blueSettled ∧
    (g.checkWin).firstSettler = g.firstSettler := by
  rcases hr : g.rule with _ | _ | _
  · rcases hw : g.checkNormalWin with _ | w <;>
      simp only [Game.checkWin, hr, hw] <;> (try split) <;> simp_all
  · rcases hw : g.checkBlackoutWin with _ | w <;>
      simp only [Game.checkWin, hr, hw] <;> (try split) <;> simp_all
  · simp [Game.checkWin, hr]

theorem markNormal_err (g : Game) (r c : Nat) (p : PlayerColor) (e : GErr)
    (h : (g.markNormal r c p).2 = some e) : (g.markNormal r c p).1 = g := by
  unfold Game.markNormal at h ⊢
  dsimp only at h ⊢
  split_ifs at h ⊢ <;> simp_all

theorem markBlackout_err (g : Game) (r c : Nat) (p : PlayerColor) (e : GErr)
    (h : (g.markBlackout r c p).2 = some e) : (g.markBlackout r c p).1 = g := by
  unfold Game.markBlackout at h ⊢
  dsimp only at h ⊢
  split_ifs at h ⊢ <;> simp_all

theorem markPhase_err (g : Game) (r c : Nat) (p : PlayerColor) (e : GErr)
    (h : (g.markPhase r c p).2 = some e) : (g.markPhase r c p).1 = g := by
  unfold Game.markPhase at h ⊢
  dsimp only at h ⊢
  split_ifs at h ⊢ <;> simp_all

theorem markCell_err (g : Game) (row col : Int) (p : PlayerColor) (e : GErr)
    (h : (g.markCell row col p).2 = some e) : (g.markCell row col p).1 = g := by
  rcases hrule : g.rule with _ | _ | _
  · simp only [Game.markCell, hrule] at h ⊢
    rcases hres : (g.markNormal row.toNat col.toNat p).2 with _ | e1 <;>
      simp only [hres] at h ⊢ <;> split_ifs at h ⊢ <;>
      first
        | rfl
        | exact markNormal_err g _ _ p _ hres
        | simp_all
  · simp only [Game.markCell, hrule] at h ⊢
    rcases hres : (g.markBlackout row.toNat col.toNat p).2 with _ | e1 <;>
      simp only [hres] at h ⊢ <;> split_ifs at h ⊢ <;>
      first
        | rfl
        | exact markBlackout_err g _ _ p _ hres
        | simp_all
  · simp only [Game.markCell, hrule] at h ⊢
    rcases hres : (g.markPhase row.toNat col.toNat p).2 with _ | e1 <;>
      simp only [hres] at h ⊢ <;> split_ifs at h ⊢ <;>
      first
        | rfl
        | exact markPhase_err g _ _ p _ hres
        | simp_all

theorem markCellForce_err (g : Game) (row col : Int) (p : PlayerColor) (e : GErr)
    (h : (g.markCellForce row col p).2 = some e) : (g.markCellForce row col p).1 = g := by
  unfold Game.markCellForce at h ⊢
  dsimp only at h ⊢
  split_ifs at h ⊢ <;> simp_all

theorem unmarkCell_err (g : Game) (row col : Int) (e : GErr)
    (h : (g.unmarkCell row col).2 = some e) : (g.unmarkCell row col).1 = g := by
  unfold Game.unmarkCell at h ⊢
  split_ifs at h ⊢ <;> rfl

theorem clearCellMark_err (g : Game) (row col : Int) (p : PlayerColor) (e : GErr)
    (h : (g.clearCellMark row col p).2 = some e) : (g.clearCellMark row col p).1 = g := by
  unfold Game.clearCellMark at h ⊢
  split_ifs at h ⊢ <;> rfl

theorem settle_err (g : Game) (p : PlayerColor) (e : GErr)
    (h : (g.settle p).2 = some e) : (g.settle p).1 = g := by
  unfold Game.settle at h ⊢
  dsimp only at h ⊢
  split_ifs at h ⊢ <;> simp_all

theorem start_err (g : Game) (e : GErr)
    (h : (g.start).2 = some e) : (g.start).1 = g := by
  unfold Game.start at h ⊢
  split_ifs at h ⊢ <;> simp_all

theorem setCellText_err (g : Game) (row col : Int) (t : String) (e : GErr)
    (h : (g.setCellText row col t).2 = some e) : (g.setCellText row col t).1 = g := by
  unfold Game.setCellText at h ⊢
  dsimp only at h ⊢
  split_ifs at h ⊢ <;> simp_all

theorem setAllCellTexts_err (g : Game) (ts : List String) (e : GErr)
    (h : (g.setAllCellTexts ts).2 = some e) : (g.setAllCellTexts ts).1 = g := by
  unfold Game.setAllCellTexts at h ⊢
  dsimp only at h ⊢
  split_ifs at h ⊢ <;> simp_all

theorem roomMarkCell_err (r : Room) (uid : String) (row col : Int)
    (p : PlayerColor) (e : GErr) (h : (r.markCell uid row col p).2 = some e) :
    (r.markCell uid row col p).1 = r := by
  unfold Room.markCell at h ⊢
  rcases hu : r.findUser uid with _ | u <;> simp only [hu] at h ⊢ <;>
  rcases hrole : u.role with _ | _ | _ <;> simp only [hrole] at h ⊢ <;>
  (try split_ifs at h ⊢) <;>
  first
    | rfl
    | rw [markCell_err r.game row col p e h]
    | rw [markCellForce_err r.game row col p e h]

theorem roomUnmarkCell_err (r : Room) (uid : String) (row col : Int) (e : GErr)
    (h : (r.unmarkCell uid row col).2 = some e) : (r.unmarkCell uid row col).1 = r := by
  unfold Room.unmarkCell at h ⊢
  rcases hu : r.findUser uid with _ | u <;> simp only [hu] at h ⊢ <;>
  (try split_ifs at h ⊢) <;>
  first
    | rfl
    | rw [unmarkCell_err r.game row col e h]

theorem roomClearCellMark_err (r : Room) (uid : String) (row col : Int)
    (p : PlayerColor) (e : GErr) (h : (r.clearCellMark uid row col p).2 = some e) :
    (r.clearCellMark uid row col p).1 = r := by
  unfold Room.clearCellMark at h ⊢
  rcases hu : r.findUser uid with _ | u <;> simp only [hu] at h ⊢ <;>
  (try split_ifs at h ⊢) <;>
  first
    | rfl
    | rw [clearCellMark_err r.game row col p e h]

theorem roomSettle_err (r : Room) (uid : String) (p : PlayerColor) (e : GErr)
    (h : (r.settle uid p).2 = some e) : (r.settle uid p).1 = r := by
  unfold Room.settle at h ⊢
  rcases hu : r.findUser uid with _ | u <;> simp only [hu] at h ⊢ <;>
  rcases hrole : u.role with _ | _ | _ <;> simp only [hrole] at h ⊢ <;>
  (try split_ifs at h ⊢) <;>
  first
    | rfl
    | rw [settle_err r.game p e h]

theorem roomSetGameRule_err (r : Room) (uid : String) (rule : GameRule)
    (cfg : PhaseConfig) (e : GErr) (h : (r.setGameRule uid rule cfg).2 = some e) :
    (r.setGameRule uid rule cfg).1 = r := by
  unfold Room.setGameRule at h ⊢
  split_ifs at h ⊢ <;> simp_all

theorem roomStartGame_err (r : Room) (uid : String) (e : GErr)
    (h : (r.startGame uid).2 = some e) : (r.startGame uid).1 = r := by
  unfold Room.startGame at h ⊢
  dsimp only at h ⊢
  (try split_ifs at h ⊢) <;>
  first
    | rfl
    | rw [start_err r.game e h]

theorem roomResetGame_err (r : Room) (uid : String) (e : GErr)
    (h : (r.resetGame uid).2 = some e) : (r.resetGame uid).1 = r := by
  unfold Room.resetGame at h ⊢
  split_ifs at h ⊢ <;> simp_all

theorem roomSetCellText_err (r : Room) (uid : String) (row col : Int) (t : String)
    (e : GErr) (h : (r.setCellText uid row col t).2 = some e) :
    (r.setCellText uid row col t).1 = r := by
  unfold Room.setCellText at h ⊢
  dsimp only at h ⊢
  (try split_ifs at h ⊢) <;>
  first
    | rfl
    | rw [setCellText_err r.game row col t e h]

theorem roomSetAllCellTexts_err (r : Room) (uid : String) (ts : List String)
    (e : GErr) (h : (r.setAllCellTexts uid ts).2 = some e) :
    (r.setAllCellTexts uid ts).1 = r := by
  unfold Room.setAllCellTexts at h ⊢
  dsimp only at h ⊢
  (try split_ifs at h ⊢) <;>
  first
    | rfl
    | rw [setAllCellTexts_err r.game ts e h]



theorem frontierOk_incr (ur : Int) (marks : Nat → Int) (thr : Int) (row : Nat)
    (h : frontierOk ur marks thr) :
    frontierOk (if ((row : Int) = ur ∧ ur < 4 ∧ marks row + 1 ≥ thr) then ur + 1 else ur)
      (updRow marks row (marks row + 1)) thr := by
  obtain ⟨h0, h4, hOr⟩ := h
  split_ifs with hc
  · obtain ⟨hrow, hlt, hthr⟩ := hc
    refine ⟨by omega, by omega, Or.inr ?_⟩
    have hx : (ur + 1 - 1).toNat = row := by omega
    rw [hx]
    simp [updRow]
    omega
  · refine ⟨h0, h4, ?_⟩
    rcases hOr with h | h
    · exact Or.inl h
    · refine Or.inr ?_
      by_cases hx : (ur - 1).toNat = row
      · rw [hx] at h ⊢
        simp only [updRow, if_pos rfl]
        omega
      · simp only [updRow]
        rw [if_neg hx]
        exact h

theorem recheck_red (g : Game) (h0 : 0 ≤ g.redUnlockedRow) (h4 : g.redUnlockedRow ≤ 4) :
    frontierOk (g.recheckPhaseRowUnlock .red).redUnlockedRow
      (g.recheckPhaseRowUnlock .red).redRowMarks
      (g.recheckPhaseRowUnlock .red).phaseConfig.unlockThreshold ∧
    (g.recheckPhaseRowUnlock .red).blueUnlockedRow = g.blueUnlockedRow ∧
    (g.recheckPhaseRowUnlock .red).blueRowMarks = g.blueRowMarks ∧
    (g.recheckPhaseRowUnlock .red).redRowMarks = g.redRowMarks ∧
    (g.recheckPhaseRowUnlock .red).phaseConfig = g.phaseConfig ∧
    (g.recheckPhaseRowUnlock .red).rule = g.rule ∧
    (g.recheckPhaseRowUnlock .red).board = g.board ∧
    (g.recheckPhaseRowUnlock .red).bingoAchiever = g.bingoAchiever ∧
    (g.recheckPhaseRowUnlock .red).bingoLine = g.bingoLine := by
  unfold Game.recheckPhaseRowUnlock
  rw [if_pos rfl]
  split_ifs with hle <;> (try dsimp only)
  · exact ⟨⟨h0, h4, Or.inl (by omega)⟩, rfl, rfl, rfl, rfl, rfl, rfl, rfl, rfl⟩
  · refine ⟨⟨Int.natCast_nonneg _, ?_, ?_⟩, rfl, rfl, rfl, rfl, rfl, rfl, rfl, rfl⟩
    · have := rollbackFrontier_le g.redRowMarks g.phaseConfig.unlockThreshold
        g.redUnlockedRow.toNat
      omega
    · rcases rollbackFrontier_spec g.redRowMarks g.phaseConfig.unlockThreshold
        g.redUnlockedRow.toNat with h | h
      · exact Or.inl (by omega)
      · by_cases hz :
          rollbackFrontier g.redRowMarks g.phaseConfig.unlockThreshold
            g.redUnlockedRow.toNat = 0
        · exact Or.inl (by omega)
        · refine Or.inr ?_
          have hx : ((rollbackFrontier g.redRowMarks g.phaseConfig.unlockThreshold
              g.redUnlockedRow.toNat : Int) - 1).toNat
              = rollbackFrontier g.redRowMarks g.phaseConfig.unlockThreshold
                  g.redUnlockedRow.toNat - 1 := by omega
          rw [hx]
          exact h

theorem recheck_nonred (g : Game) (p : PlayerColor) (hp : p ≠ PlayerColor.red)
    (h0 : 0 ≤ g.blueUnlockedRow) (h4 : g.blueUnlockedRow ≤ 4) :
    frontierOk (g.recheckPhaseRowUnlock p).blueUnlockedRow
      (g.recheckPhaseRowUnlock p).blueRowMarks
      (g.recheckPhaseRowUnlock p).phaseConfig.unlockThreshold ∧
    (g.recheckPhaseRowUnlock p).redUnlockedRow = g.redUnlockedRow ∧
    (g.recheckPhaseRowUnlock p).redRowMarks = g.redRowMarks ∧
    (g.recheckPhaseRowUnlock p).blueRowMarks = g.blueRowMarks ∧
    (g.recheckPhaseRowUnlock p).phaseConfig = g.phaseConfig ∧
    (g.recheckPhaseRowUnlock p).rule = g.rule ∧
    (g.recheckPhaseRowUnlock p).board = g.board ∧
    (g.recheckPhaseRowUnlock p).bingoAchiever = g.bingoAchiever ∧
    (g.recheckPhaseRowUnlock p).bingoLine = g.bingoLine := by
  unfold Game.recheckPhaseRowUnlock
  rw [if_neg hp]
  split_ifs with hle <;> (try dsimp only)
  · exact ⟨⟨h0, h4, Or.inl (by omega)⟩, rfl, rfl, rfl, rfl, rfl, rfl, rfl, rfl⟩
  · refine ⟨⟨Int.natCast_nonneg _, ?_, ?_⟩, rfl, rfl, rfl, rfl, rfl, rfl, rfl, rfl⟩
    · have := rollbackFrontier_le g.blueRowMarks g.phaseConfig.unlockThreshold
        g.blueUnlockedRow.toNat
      omega
    · rcases rollbackFrontier_spec g.blueRowMarks g.phaseConfig.unlockThreshold
        g.blueUnlockedRow.toNat with h | h
      · exact Or.inl (by omega)
      · by_cases hz :
          rollbackFrontier g.blueRowMarks g.phaseConfig.unlockThreshold
            g.blueUnlockedRow.toNat = 0
        · exact Or.inl (by omega)
        · refine Or.inr ?_
          have hx : ((rollbackFrontier g.blueRowMarks g.phaseConfig.unlockThreshold
              g.blueUnlockedRow.toNat : Int) - 1).toNat
              = rollbackFrontier g.blueRowMarks g.phaseConfig.unlockThreshold
                  g.blueUnlockedRow.toNat - 1 := by omega
          rw [hx]
          exact h

theorem frontierInv_of_sameCore {g1 g2 : Game} (h : SameCore g1 g2)
    (hi : g2.frontierInv) : g1.frontierInv := by
  obtain ⟨-, -, hcfg, -, -, hrm, hbm, hru, hbu, -, -, -⟩ := h
  unfold Game.frontierInv at hi ⊢
  rw [hcfg, hrm, hbm, hru, hbu]
  exact hi


theorem bingoStep_frontier (g1 : Game) (h : g1.frontierInv) :
    (if g1.bingoAchiever = PlayerColor.none then (g1.checkPhaseBingo).1 else g1).frontierInv ∧
    (if g1.bingoAchiever = PlayerColor.none then (g1.checkPhaseBingo).1 else g1).rule
      = g1.rule ∧
    (if g1.bingoAchiever = PlayerColor.none then (g1.checkPhaseBingo).1 else g1).phaseConfig
      = g1.phaseConfig := by
  split_ifs
  · have hc := sameCore_checkPhaseBingo g1
    exact ⟨frontierInv_of_sameCore hc h, hc.2.1, hc.2.2.1⟩
  · exact ⟨h, rfl, rfl⟩

theorem frontier_goal_step (g g1 : Game) (cond : Prop) [Decidable cond]
    (h : g1.frontierInv) (hr : g1.rule = g.rule)
    (hc : g1.phaseConfig = g.phaseConfig) :
    (if cond then (g1.checkPhaseBingo).1 else g1).frontierInv ∧
    (if cond then (g1.checkPhaseBingo).1 else g1).rule = g.rule ∧
    (if cond then (g1.checkPhaseBingo).1 else g1).phaseConfig = g.phaseConfig := by
  split_ifs
  · have hcc := sameCore_checkPhaseBingo g1
    exact ⟨frontierInv_of_sameCore hcc h, hcc.2.1.trans hr, hcc.2.2.1.trans hc⟩
  · exact ⟨h, hr, hc⟩

theorem markPhase_frontier (g : Game) (row col : Nat) (p : PlayerColor)
    (hinv : g.frontierInv) :
    ((g.markPhase row col p).1).frontierInv ∧
    ((g.markPhase row col p).1).rule = g.rule ∧
    ((g.markPhase row col p).1).phaseConfig = g.phaseConfig := by
  by_cases hp : p = PlayerColor.red
  · subst hp
    unfold Game.markPhase
    dsimp only
    simp only [reduceIte]
    by_cases hlock : (row : Int) > g.redUnlockedRow
    · rw [if_pos hlock]
      exact ⟨hinv, rfl, rfl⟩
    rw [if_neg hlock]
    by_cases hlim : g.redRowMarks row ≥ g.phaseConfig.cellsPerRow
    · rw [if_pos hlim]
      exact ⟨hinv, rfl, rfl⟩
    rw [if_neg hlim]
    by_cases hdup : (g.board row col).markedBy = PlayerColor.red ∨
        (g.board row col).secondMark = PlayerColor.red
    · rw [if_pos hdup]
      exact ⟨hinv, rfl, rfl⟩
    rw [if_neg hdup]
    dsimp only
    refine frontier_goal_step g _ _ ⟨?_, ?_⟩ ?_ ?_
    · exact frontierOk_incr _ _ _ _ hinv.1
    · exact hinv.2
    · rfl
    · rfl
  · unfold Game.markPhase
    dsimp only
    simp only [if_neg hp]
    by_cases hlock : (row : Int) > g.blueUnlockedRow
    · rw [if_pos hlock]
      exact ⟨hinv, rfl, rfl⟩
    rw [if_neg hlock]
    by_cases hlim : g.blueRowMarks row ≥ g.phaseConfig.cellsPerRow
    · rw [if_pos hlim]
      exact ⟨hinv, rfl, rfl⟩
    rw [if_neg hlim]
    by_cases hdup : (g.board row col).markedBy = p ∨ (g.board row col).secondMark = p
    · rw [if_pos hdup]
      exact ⟨hinv, rfl, rfl⟩
    rw [if_neg hdup]
    dsimp only
    refine frontier_goal_step g _ _ ⟨?_, ?_⟩ ?_ ?_
    · exact hinv.1
    · exact frontierOk_incr _ _ _ _ hinv.2
    · rfl
    · rfl


theorem frontier_after_red (gb : Game)
    (h0 : 0 ≤ gb.redUnlockedRow) (h4 : gb.redUnlockedRow ≤ 4)
    (hblue : frontierOk gb.blueUnlockedRow gb.blueRowMarks gb.phaseConfig.unlockThreshold) :
    (gb.recheckPhaseRowUnlock .red).frontierInv ∧
    (gb.recheckPhaseRowUnlock .red).rule = gb.rule ∧
    (gb.recheckPhaseRowUnlock .red).phaseConfig = gb.phaseConfig := by
  obtain ⟨hfok, hbu, hbm, _, hcfg, hrule, _, _, _⟩ := recheck_red gb h0 h4
  refine ⟨⟨hfok, ?_⟩, hrule, hcfg⟩
  rw [hbu, hbm, hcfg]
  exact hblue

theorem frontier_after_nonred (gb : Game) (p : PlayerColor) (hp : p ≠ PlayerColor.red)
    (h0 : 0 ≤ gb.blueUnlockedRow) (h4 : gb.blueUnlockedRow ≤ 4)
    (hred : frontierOk gb.redUnlockedRow gb.redRowMarks gb.phaseConfig.unlockThreshold) :
    (gb.recheckPhaseRowUnlock p).frontierInv ∧
    (gb.recheckPhaseRowUnlock p).rule = gb.rule ∧
    (gb.recheckPhaseRowUnlock p).phaseConfig = gb.phaseConfig := by
  obtain ⟨hfok, hru, hrm, _, hcfg, hrule, _, _, _⟩ := recheck_nonred gb p hp h0 h4
  refine ⟨⟨?_, hfok⟩, hrule, hcfg⟩
  rw [hru, hrm, hcfg]
  exact hred

theorem clear_leaf_red (ga : Game)
    (h0 : 0 ≤ ga.redUnlockedRow) (h4 : ga.redUnlockedRow ≤ 4)
    (hblue : frontierOk ga.blueUnlockedRow ga.blueRowMarks ga.phaseConfig.unlockThreshold) :
    ((ga.recheckPhaseRowUnlock .red).recheckPhaseBingo).frontierInv ∧
    ((ga.recheckPhaseRowUnlock .red).recheckPhaseBingo).rule = ga.rule ∧
    ((ga.recheckPhaseRowUnlock .red).recheckPhaseBingo).phaseConfig = ga.phaseConfig := by
  obtain ⟨hinv2, hrule2, hcfg2⟩ := frontier_after_red ga h0 h4 hblue
  have hsc := sameCore_recheckPhaseBingo (ga.recheckPhaseRowUnlock .red)
  exact ⟨frontierInv_of_sameCore hsc hinv2, hsc.2.1.trans hrule2, hsc.2.2.1.trans hcfg2⟩

theorem clear_leaf_nonred (ga : Game) (p : PlayerColor) (hp : p ≠ PlayerColor.red)
    (h0 : 0 ≤ ga.blueUnlockedRow) (h4 : ga.blueUnlockedRow ≤ 4)
    (hred : frontierOk ga.redUnlockedRow ga.redRowMarks ga.phaseConfig.unlockThreshold) :
    ((ga.recheckPhaseRowUnlock p).recheckPhaseBingo).frontierInv ∧
    ((ga.recheckPhaseRowUnlock p).recheckPhaseBingo).rule = ga.rule ∧
    ((ga.recheckPhaseRowUnlock p).recheckPhaseBingo).phaseConfig = ga.phaseConfig := by
  obtain ⟨hinv2, hrule2, hcfg2⟩ := frontier_after_nonred ga p hp h0 h4 hred
  have hsc := sameCore_recheckPhaseBingo (ga.recheckPhaseRowUnlock p)
  exact ⟨frontierInv_of_sameCore hsc hinv2, hsc.2.1.trans hrule2, hsc.2.2.1.trans hcfg2⟩

theorem clear_frontier (g : Game) (row col : Int) (p : PlayerColor)
    (hphase : g.rule = GameRule.phase) (hinv : g.frontierInv) :
    ((g.clearCellMark row col p).1).frontierInv ∧
    ((g.clearCellMark row col p).1).rule = g.rule ∧
    ((g.clearCellMark row col p).1).phaseConfig = g.phaseConfig := by
  unfold Game.clearCellMark
  by_cases hw : g.status = GameStatus.waiting
  · rw [if_pos hw]
    exact ⟨hinv, rfl, rfl⟩
  rw [if_neg hw]
  by_cases hbd : row < 0 ∨ row > 4 ∨ col < 0 ∨ col > 4
  · rw [if_pos hbd]
    exact ⟨hinv, rfl, rfl⟩
  rw [if_neg hbd]
  dsimp only
  by_cases hm1 : (g.board row.toNat col.toNat).markedBy = p
  · rw [if_pos hm1]
    dsimp only
    rw [if_pos ⟨hphase, rfl⟩]
    by_cases hp : p = PlayerColor.red
    · subst hp
      by_cases hpos : g.redRowMarks row.toNat > 0
      · rw [if_pos ⟨rfl, hpos⟩]
        exact clear_leaf_red _ hinv.1.1 hinv.1.2.1 hinv.2
      · rw [if_neg (fun hcon => hpos hcon.2),
            if_neg (fun hcon => (by decide :
              PlayerColor.red ≠ PlayerColor.blue) hcon.1)]
        exact clear_leaf_red _ hinv.1.1 hinv.1.2.1 hinv.2
    · rw [if_neg (fun hcon => hp hcon.1)]
      by_cases hc2 : p = PlayerColor.blue ∧ g.blueRowMarks row.toNat > 0
      · rw [if_pos hc2]
        exact clear_leaf_nonred _ p hp hinv.2.1 hinv.2.2.1 hinv.1
      · rw [if_neg hc2]
        exact clear_leaf_nonred _ p hp hinv.2.1 hinv.2.2.1 hinv.1
  · rw [if_neg hm1]
    by_cases hm2 : (g.board row.toNat col.toNat).secondMark = p
    · rw [if_pos hm2]
      dsimp only
      rw [if_pos ⟨hphase, rfl⟩]
      by_cases hp : p = PlayerColor.red
      · subst hp
        by_cases hpos : g.redRowMarks row.toNat > 0
        · rw [if_pos ⟨rfl, hpos⟩]
          exact clear_leaf_red _ hinv.1.1 hinv.1.2.1 hinv.2
        · rw [if_neg (fun hcon => hpos hcon.2),
              if_neg (fun hcon => (by decide :
                PlayerColor.red ≠ PlayerColor.blue) hcon.1)]
          exact clear_leaf_red _ hinv.1.1 hinv.1.2.1 hinv.2
      · rw [if_neg (fun hcon => hp hcon.1)]
        by_cases hc2 : p = PlayerColor.blue ∧ g.blueRowMarks row.toNat > 0
        · rw [if_pos hc2]
          exact clear_leaf_nonred _ p hp hinv.2.1 hinv.2.2.1 hinv.1
        · rw [if_neg hc2]
          exact clear_leaf_nonred _ p hp hinv.2.1 hinv.2.2.1 hinv.1
    · rw [if_neg hm2]
      dsimp only
      rw [if_neg (fun hcon => (by simp at hcon : False))]
      exact ⟨hinv, rfl, rfl⟩


theorem frontier_after_both (gb : Game)
    (hr0 : 0 ≤ gb.redUnlockedRow) (hr4 : gb.redUnlockedRow ≤ 4)
    (hb0 : 0 ≤ gb.blueUnlockedRow) (hb4 : gb.blueUnlockedRow ≤ 4) :
    (((gb.recheckPhaseRowUnlock .red).recheckPhaseRowUnlock .blue)).frontierInv ∧
    (((gb.recheckPhaseRowUnlock .red).recheckPhaseRowUnlock .blue)).rule = gb.rule ∧
    (((gb.recheckPhaseRowUnlock .red).recheckPhaseRowUnlock .blue)).phaseConfig
      = gb.phaseConfig := by
  obtain ⟨hfokr, hbu, hbm, _, hcfg, hrule, _, _, _⟩ := recheck_red gb hr0 hr4
  obtain ⟨hfokb, hru2, hrm2, _, hcfg2, hrule2, _, _, _⟩ :=
    recheck_nonred (gb.recheckPhaseRowUnlock .red) .blue (by decide)
      (by rw [hbu]; exact hb0) (by rw [hbu]; exact hb4)
  refine ⟨⟨?_, hfokb⟩, hrule2.trans hrule, hcfg2.trans hcfg⟩
  rw [hru2, hrm2, hcfg2]
  exact hfokr

theorem unmark_leaf_generic (gd g2 : Game) (b : Board) (grule : GameRule)
    (gcfg : PhaseConfig) (hg2 : g2 = gd.recheckPhaseBingo)
    (hinv : gd.frontierInv) (hrule : gd.rule = GameRule.phase)
    (hruleT : gd.rule = grule) (hcfgT : gd.phaseConfig = gcfg) :
    (if g2.rule ≠ GameRule.phase
     then ({ g2 with board := b }).checkWin else { g2 with board := b }).frontierInv ∧
    (if g2.rule ≠ GameRule.phase
     then ({ g2 with board := b }).checkWin else { g2 with board := b }).rule = grule ∧
    (if g2.rule ≠ GameRule.phase
     then ({ g2 with board := b }).checkWin
     else { g2 with board := b }).phaseConfig = gcfg := by
  subst hg2
  have hsc := sameCore_recheckPhaseBingo gd
  have h1 : (gd.recheckPhaseBingo).rule = GameRule.phase := hsc.2.1.trans hrule
  rw [if_neg (by simp [h1])]
  refine ⟨?_, ?_, ?_⟩
  · show (gd.recheckPhaseBingo).frontierInv
    exact frontierInv_of_sameCore hsc hinv
  · show (gd.recheckPhaseBingo).rule = grule
    exact hsc.2.1.trans hruleT
  · show (gd.recheckPhaseBingo).phaseConfig = gcfg
    exact hsc.2.2.1.trans hcfgT

theorem unmark_frontier (g : Game) (row col : Int)
    (hphase : g.rule = GameRule.phase) (hinv : g.frontierInv) :
    ((g.unmarkCell row col).1).frontierInv ∧
    ((g.unmarkCell row col).1).rule = g.rule ∧
    ((g.unmarkCell row col).1).phaseConfig = g.phaseConfig := by
  have negFF : ¬(false = true ∨ false = true) := by simp
  unfold Game.unmarkCell
  by_cases hw : g.status = GameStatus.waiting
  · rw [if_pos hw]
    exact ⟨hinv, rfl, rfl⟩
  rw [if_neg hw]
  by_cases hbd : row < 0 ∨ row > 4 ∨ col < 0 ∨ col > 4
  · rw [if_pos hbd]
    exact ⟨hinv, rfl, rfl⟩
  rw [if_neg hbd]
  dsimp only
  rw [if_pos hphase]
  by_cases cA1 : (g.board row.toNat col.toNat).markedBy = PlayerColor.red ∧
      g.redRowMarks row.toNat > 0
  · rw [if_pos cA1]
    dsimp only
    by_cases cB1 : (g.board row.toNat col.toNat).secondMark = PlayerColor.red ∧
        updRow g.redRowMarks row.toNat (g.redRowMarks row.toNat - 1) row.toNat > 0
    · rw [if_pos cB1]
      dsimp only
      rw [if_pos (Or.inl rfl), if_neg negFF]
      refine unmark_leaf_generic _ _ _ _ _ rfl ?_ ?_ ?_ ?_
      · exact (frontier_after_red _ (by exact hinv.1.1) (by exact hinv.1.2.1) (by exact hinv.2)).1
      · exact ((frontier_after_red _ (by exact hinv.1.1) (by exact hinv.1.2.1) (by exact hinv.2)).2.1).trans (by exact hphase)
      · exact (frontier_after_red _ (by exact hinv.1.1) (by exact hinv.1.2.1) (by exact hinv.2)).2.1
      · exact (frontier_after_red _ (by exact hinv.1.1) (by exact hinv.1.2.1) (by exact hinv.2)).2.2
    · rw [if_neg cB1]
      by_cases cB2 : (g.board row.toNat col.toNat).secondMark = PlayerColor.blue ∧
          g.blueRowMarks row.toNat > 0
      · rw [if_pos cB2]
        dsimp only
        rw [if_pos (Or.inl rfl), if_pos (Or.inr rfl)]
        refine unmark_leaf_generic _ _ _ _ _ rfl ?_ ?_ ?_ ?_
        · exact (frontier_after_both _ (by exact hinv.1.1) (by exact hinv.1.2.1) (by exact hinv.2.1) (by exact hinv.2.2.1)).1
        · exact ((frontier_after_both _ (by exact hinv.1.1) (by exact hinv.1.2.1) (by exact hinv.2.1) (by exact hinv.2.2.1)).2.1).trans (by exact hphase)
        · exact (frontier_after_both _ (by exact hinv.1.1) (by exact hinv.1.2.1) (by exact hinv.2.1) (by exact hinv.2.2.1)).2.1
        · exact (frontier_after_both _ (by exact hinv.1.1) (by exact hinv.1.2.1) (by exact hinv.2.1) (by exact hinv.2.2.1)).2.2
      · rw [if_neg cB2]
        dsimp only
        rw [if_pos (Or.inl rfl), if_neg negFF]
        refine unmark_leaf_generic _ _ _ _ _ rfl ?_ ?_ ?_ ?_
        · exact (frontier_after_red _ (by exact hinv.1.1) (by exact hinv.1.2.1) (by exact hinv.2)).1
        · exact ((frontier_after_red _ (by exact hinv.1.1) (by exact hinv.1.2.1) (by exact hinv.2)).2.1).trans (by exact hphase)
        · exact (frontier_after_red _ (by exact hinv.1.1) (by exact hinv.1.2.1) (by exact hinv.2)).2.1
        · exact (frontier_after_red _ (by exact hinv.1.1) (by exact hinv.1.2.1) (by exact hinv.2)).2.2
  · rw [if_neg cA1]
    by_cases cA2 : (g.board row.toNat col.toNat).markedBy = PlayerColor.blue ∧
        g.blueRowMarks row.toNat > 0
    · rw [if_pos cA2]
      dsimp only
      by_cases cB1 : (g.board row.toNat col.toNat).secondMark = PlayerColor.red ∧
          g.redRowMarks row.toNat > 0
      · rw [if_pos cB1]
        dsimp only
        rw [if_pos (Or.inr rfl), if_pos (Or.inl rfl)]
        refine unmark_leaf_generic _ _ _ _ _ rfl ?_ ?_ ?_ ?_
        · exact (frontier_after_both _ (by exact hinv.1.1) (by exact hinv.1.2.1) (by exact hinv.2.1) (by exact hinv.2.2.1)).1
        · exact ((frontier_after_both _ (by exact hinv.1.1) (by exact hinv.1.2.1) (by exact hinv.2.1) (by exact hinv.2.2.1)).2.1).trans (by exact hphase)
        · exact (frontier_after_both _ (by exact hinv.1.1) (by exact hinv.1.2.1) (by exact hinv.2.1) (by exact hinv.2.2.1)).2.1
        · exact (frontier_after_both _ (by exact hinv.1.1) (by exact hinv.1.2.1) (by exact hinv.2.1) (by exact hinv.2.2.1)).2.2
      · rw [if_neg cB1]
        by_cases cB2 : (g.board row.toNat col.toNat).secondMark = PlayerColor.blue ∧
            updRow g.blueRowMarks row.toNat (g.blueRowMarks row.toNat - 1) row.toNat > 0
        · rw [if_pos cB2]
          dsimp only
          rw [if_neg negFF, if_pos (Or.inl rfl)]
          refine unmark_leaf_generic _ _ _ _ _ rfl ?_ ?_ ?_ ?_
          · exact (frontier_after_nonred _ .blue (by decide) (by exact hinv.2.1) (by exact hinv.2.2.1) (by exact hinv.1)).1
          · exact ((frontier_after_nonred _ .blue (by decide) (by exact hinv.2.1) (by exact hinv.2.2.1) (by exact hinv.1)).2.1).trans (by exact hphase)
          · exact (frontier_after_nonred _ .blue (by decide) (by exact hinv.2.1) (by exact hinv.2.2.1) (by exact hinv.1)).2.1
          · exact (frontier_after_nonred _ .blue (by decide) (by exact hinv.2.1) (by exact hinv.2.2.1) (by exact hinv.1)).2.2
        · rw [if_neg cB2]
          dsimp only
          rw [if_neg negFF, if_pos (Or.inl rfl)]
          refine unmark_leaf_generic _ _ _ _ _ rfl ?_ ?_ ?_ ?_
          · exact (frontier_after_nonred _ .blue (by decide) (by exact hinv.2.1) (by exact hinv.2.2.1) (by exact hinv.1)).1
          · exact ((frontier_after_nonred _ .blue (by decide) (by exact hinv.2.1) (by exact hinv.2.2.1) (by exact hinv.1)).2.1).trans (by exact hphase)
          · exact (frontier_after_nonred _ .blue (by decide) (by exact hinv.2.1) (by exact hinv.2.2.1) (by exact hinv.1)).2.1
          · exact (frontier_after_nonred _ .blue (by decide) (by exact hinv.2.1) (by exact hinv.2.2.1) (by exact hinv.1)).2.2
    · rw [if_neg cA2]
      by_cases cB1 : (g.board row.toNat col.toNat).secondMark = PlayerColor.red ∧
          g.redRowMarks row.toNat > 0
      · rw [if_pos cB1]
        dsimp only
        rw [if_pos (Or.inr rfl), if_neg negFF]
        refine unmark_leaf_generic _ _ _ _ _ rfl ?_ ?_ ?_ ?_
        · exact (frontier_after_red _ (by exact hinv.1.1) (by exact hinv.1.2.1) (by exact hinv.2)).1
        · exact ((frontier_after_red _ (by exact hinv.1.1) (by exact hinv.1.2.1) (by exact hinv.2)).2.1).trans (by exact hphase)
        · exact (frontier_after_red _ (by exact hinv.1.1) (by exact hinv.1.2.1) (by exact hinv.2)).2.1
        · exact (frontier_after_red _ (by exact hinv.1.1) (by exact hinv.1.2.1) (by exact hinv.2)).2.2
      · rw [if_neg cB1]
        by_cases cB2 : (g.board row.toNat col.toNat).secondMark = PlayerColor.blue ∧
            g.blueRowMarks row.toNat > 0
        · rw [if_pos cB2]
          dsimp only
          rw [if_neg negFF, if_pos (Or.inr rfl)]
          refine unmark_leaf_generic _ _ _ _ _ rfl ?_ ?_ ?_ ?_
          · exact (frontier_after_nonred _ .blue (by decide) (by exact hinv.2.1) (by exact hinv.2.2.1) (by exact hinv.1)).1
          · exact ((frontier_after_nonred _ .blue (by decide) (by exact hinv.2.1) (by exact hinv.2.2.1) (by exact hinv.1)).2.1).trans (by exact hphase)
          · exact (frontier_after_nonred _ .blue (by decide) (by exact hinv.2.1) (by exact hinv.2.2.1) (by exact hinv.1)).2.1
          · exact (frontier_after_nonred _ .blue (by decide) (by exact hinv.2.1) (by exact hinv.2.2.1) (by exact hinv.1)).2.2
        · rw [if_neg cB2]
          dsimp only
          rw [if_neg negFF, if_neg negFF]
          exact unmark_leaf_generic _ _ _ _ _ rfl (by exact hinv) (by exact hphase) rfl rfl


theorem markCell_frontier (g : Game) (row col : Int) (p : PlayerColor)
    (hphase : g.rule = GameRule.phase) (hinv : g.frontierInv) :
    ((g.markCell row col p).1).frontierInv ∧
    ((g.markCell row col p).1).rule = g.rule ∧
    ((g.markCell row col p).1).phaseConfig = g.phaseConfig := by
  have hm := markPhase_frontier g row.toNat col.toNat p hinv
  unfold Game.markCell
  by_cases hw : g.status = GameStatus.waiting
  · rw [if_pos hw]
    exact ⟨hinv, rfl, rfl⟩
  rw [if_neg hw]
  by_cases hf : g.status = GameStatus.finished
  · rw [if_pos hf]
    exact ⟨hinv, rfl, rfl⟩
  rw [if_neg hf]
  by_cases hbd : row < 0 ∨ row > 4 ∨ col < 0 ∨ col > 4
  · rw [if_pos hbd]
    exact ⟨hinv, rfl, rfl⟩
  rw [if_neg hbd]
  dsimp only
  rw [hphase]
  rcases hr2 : (g.markPhase row.toNat col.toNat p).2 with _ | e
  · simp only [hr2]
    rw [if_neg (by simp [hm.2.1.trans hphase])]
    exact ⟨hm.1, hm.2.1.trans hphase, hm.2.2⟩
  · simp only [hr2]
    exact ⟨hm.1, hm.2.1.trans hphase, hm.2.2⟩

theorem applyOp_frontier (g : Game) (op : GameOp)
    (hphase : g.rule = GameRule.phase) (hinv : g.frontierInv) :
    (g.applyOp op).frontierInv ∧ (g.applyOp op).rule = GameRule.phase := by
  cases op with
  | mark row col p =>
      exact ⟨(markCell_frontier g row col p hphase hinv).1,
        ((markCell_frontier g row col p hphase hinv).2.1).trans hphase⟩
  | unmark row col =>
      exact ⟨(unmark_frontier g row col hphase hinv).1,
        ((unmark_frontier g row col hphase hinv).2.1).trans hphase⟩
  | clear row col p =>
      exact ⟨(clear_frontier g row col p hphase hinv).1,
        ((clear_frontier g row col p hphase hinv).2.1).trans hphase⟩

theorem runOps_frontier (ops : List GameOp) (g : Game)
    (hphase : g.rule = GameRule.phase) (hinv : g.frontierInv) :
    (g.runOps ops).frontierInv := by
  induction ops generalizing g with
  | nil => exact hinv
  | cons op rest ih =>
      have h := applyOp_frontier g op hphase hinv
      have hstep : g.runOps (op :: rest) = (g.applyOp op).runOps rest := rfl
      rw [hstep]
      exact ih (g.applyOp op) h.2 h.1

theorem mkStartedGame_frontierInv (rule : GameRule) (cfg : PhaseConfig) :
    (mkStartedGame rule cfg).frontierInv := by
  refine ⟨⟨le_refl 0, ?_, Or.inl rfl⟩, ⟨le_refl 0, ?_, Or.inl rfl⟩⟩ <;>
    · show (0 : Int) ≤ 4
      norm_num

/-! ### Claim theorems -/

/-- C1 (amended): for every phase-rule game freshly started from any config,
after any sequence of MarkCell/UnmarkCell/ClearCellMark operations each
color's unlock frontier stays within board bounds and, unless it is 0, the
row immediately below it meets the unlock threshold; rows further below the
frontier are NOT guaranteed to meet the threshold. -/
theorem c1_frontier_invariant (cfg : PhaseConfig) (ops : List GameOp) :
    ((mkStartedGame .phase cfg).runOps ops).frontierInv :=
  runOps_frontier ops _ rfl (mkStartedGame_frontierInv .phase cfg)

/-- C1 counterexample to the original claim: marks filling rows 0-3 at the
default threshold 2 drive red's frontier to 4; a ClearCellMark in row 0 then
drops row 0 below threshold, yet the frontier stays 4 while the spec's
"largest r with all rows below at threshold" is 0. -/
theorem c1_counterexample :
    c1state.redUnlockedRow = 4 ∧
    specLargestUnlockedRow c1state.redRowMarks c1state.phaseConfig.unlockThreshold = 0 ∧
    c1state.redUnlockedRow ≠
      (specLargestUnlockedRow c1state.redRowMarks c1state.phaseConfig.unlockThreshold : Int) := by
  refine ⟨by decide, by decide, by decide⟩


/-- C10: `Start()` rejects only games whose status is already playing; on any
other status (in particular finished) it succeeds, sets status back to
playing, and leaves every other field unchanged — the board keeps its marks
and a non-nil Winner record is retained. -/
theorem c10_start_only_rejects_playing (g : Game) :
    (g.status ≠ GameStatus.playing →
      g.start = ({ g with status := GameStatus.playing }, Option.none)) ∧
    (g.status = GameStatus.playing →
      g.start = (g, some GErr.gameAlreadyInProgress)) := by
  constructor <;> intro h <;> simp [Game.start, h]

/-- C10 witness: starting a finished game with one mark and a recorded winner
succeeds, restores playing status, and retains the board mark and the
Winner record. -/
theorem c10_start_witness :
    finishedSample.start
        = ({ finishedSample with status := GameStatus.playing }, Option.none) ∧
    (finishedSample.start).1.winner
        = some ⟨PlayerColor.red, WinReason.bingo, 3, 2⟩ ∧
    ((finishedSample.start).1.board 0 0).markedBy = PlayerColor.red ∧
    (finishedSample.start).1.status = GameStatus.playing :=
  ⟨(c10_start_only_rejects_playing finishedSample).1 (by decide), rfl, rfl, rfl⟩

/-- C3 (amended): `AddUser` makes the joining user owner and referee exactly
when the room ownerId is empty at add time; otherwise — including the
creator joining right after room creation, since CreateRoom presets ownerId
to the creator id — the user is appended as a spectator with no color and
the ownerId is unchanged. -/
theorem c3_addUser_roles (r : Room) (u : User) (h : r.findUser u.id = Option.none) :
    (r.ownerId = "" →
      (r.addUser u).ownerId = u.id ∧
      (r.addUser u).users = r.users ++
        [{ u with roomId := r.id, role := UserRole.referee,
                  playerColor := PlayerColor.none }] ∧
      (r.addUser u).userOrder = r.userOrder ++ [u.id]) ∧
    (r.ownerId ≠ "" →
      (r.addUser u).ownerId = r.ownerId ∧
      (r.addUser u).users = r.users ++
        [{ u with roomId := r.id, role := UserRole.spectator,
                  playerColor := PlayerColor.none }] ∧
      (r.addUser u).userOrder = r.userOrder ++ [u.id]) := by
  unfold Room.addUser
  simp only [h]
  constructor <;> intro h2 <;> simp [h2]

/-- C3 counterexample: on the CreateRoom path the creator "u1" is the first
user ever added to the room, is the owner, and yet has role spectator, not
referee — refuting the claim that the first user added becomes a referee. -/
theorem c3_counterexample :
    c3room.ownerId = "u1" ∧
    (c3room.findUser "u1").map User.role = some UserRole.spectator ∧
    (c3room.findUser "u1").map User.role ≠ some UserRole.referee := by
  exact ⟨rfl, by decide, by decide⟩

/-- C3 witness: adding "u1" to a room with an empty ownerId makes them owner;
adding "u1" to the created room (ownerId preset to "u1") keeps ownerId. -/
theorem c3_addUser_roles_witness :
    (restoredRoom.addUser creatorUser).ownerId = "u1" ∧
    ((newRoom "room1" "Room" "" "u1").addUser creatorUser).ownerId = "u1" := by
  constructor
  · exact ((c3_addUser_roles restoredRoom creatorUser (by decide)).1 rfl).1
  · exact ((c3_addUser_roles (newRoom "room1" "Room" "" "u1") creatorUser
      (by decide)).2 (by decide)).1

/-- C9 (spec-modelled): a room that becomes empty is never deleted at that
instant; TTL 0 disables eviction entirely; a deletion can happen only when
the idle TTL is positive and has fully elapsed. -/
theorem c9_empty_room_ttl (l : RoomLifecycle) (now later : Int) :
    sweepDeletes (markEmpty l now) now = false ∧
    (l.ttl = 0 → sweepDeletes l later = false) ∧
    (sweepDeletes l later = true →
      0 < l.ttl ∧ ∃ t, l.emptySince = some t ∧ l.ttl ≤ later - t) := by
  refine ⟨?_, ?_, ?_⟩
  · simp only [sweepDeletes, markEmpty]
    simp only [Bool.and_eq_false_iff, decide_eq_false_iff_not]
    omega
  · intro h0
    simp [sweepDeletes, h0]
  · intro hd
    rcases he : l.emptySince with _ | t <;> simp [sweepDeletes, he] at hd
    exact ⟨hd.1, t, rfl, hd.2⟩

/-- C9 witness: concrete instants — a room marked empty at time 100 with a
5-unit TTL survives the sweep at time 100; TTL 0 never evicts; a sweep that
deletes implies the TTL elapsed. -/
theorem c9_empty_room_ttl_witness :
    sweepDeletes (markEmpty ⟨Option.none, 5⟩ 100) 100 = false ∧
    sweepDeletes ⟨some 0, 0⟩ 1000000 = false ∧
    (0 < (5 : Int) ∧ ∃ t, (some (0 : Int)) = some t ∧ (5 : Int) ≤ 100 - t) := by
  refine ⟨(c9_empty_room_ttl ⟨Option.none, 5⟩ 100 100).1,
          (c9_empty_room_ttl ⟨some 0, 0⟩ 0 1000000).2.1 rfl,
          (c9_empty_room_ttl ⟨some 0, 5⟩ 0 100).2.2 (by decide)⟩


/-- C4: while playing with no color settled yet, Settle for a color with
fewer than 2 marks in row 4 returns CannotSettleYet leaving the state (in
particular firstSettler and the settlement flags) unchanged; the first
successful settler is recorded as firstSettler; once a firstSettler exists
the other color settles unconditionally; a color that already settled gets
AlreadySettled. -/
theorem c4_settle_preconditions (g : Game) (c : PlayerColor) :
    (g.status = GameStatus.playing → g.redSettled = false → g.blueSettled = false →
      g.firstSettler = PlayerColor.none → (c = PlayerColor.red ∨ c = PlayerColor.blue) →
      (if c = PlayerColor.red then g.redRowMarks 4 else g.blueRowMarks 4) < 2 →
      g.settle c = (g, some GErr.cannotSettleYet)) ∧
    (g.status = GameStatus.playing → g.firstSettler = PlayerColor.none →
      ((c = PlayerColor.red ∧ g.redSettled = false) ∨
       (c = PlayerColor.blue ∧ g.blueSettled = false)) →
      g.canSettle c = true →
      (g.settle c).2 = Option.none ∧ (g.settle c).1.firstSettler = c) ∧
    (g.status = GameStatus.playing → g.firstSettler ≠ PlayerColor.none →
      ((c = PlayerColor.red ∧ g.redSettled = false) ∨
       (c = PlayerColor.blue ∧ g.blueSettled = false)) →
      (g.settle c).2 = Option.none) ∧
    (g.status = GameStatus.playing →
      ((c = PlayerColor.red ∧ g.redSettled = true) ∨
       (c = PlayerColor.blue ∧ g.blueSettled = true)) →
      g.settle c = (g, some GErr.alreadySettled)) := by
  refine ⟨?_, ?_, ?_, ?_⟩
  · intro hst hrs hbs hfs hc hlt
    rcases hc with rfl | rfl
    · simp only [if_pos rfl] at hlt
      have hcs : g.canSettle PlayerColor.red = false := by
        simp only [Game.canSettle, if_pos rfl, decide_eq_false_iff_not]
        omega
      simp [Game.settle, hst, hrs, hbs, hfs, hcs]
    · simp only [if_neg (by decide : ¬(PlayerColor.blue = PlayerColor.red))] at hlt
      have hcs : g.canSettle PlayerColor.blue = false := by
        simp only [Game.canSettle, if_neg (by decide : ¬(PlayerColor.blue = PlayerColor.red)),
          decide_eq_false_iff_not]
        omega
      simp [Game.settle, hst, hrs, hbs, hfs, hcs]
  · intro hst hfs hset hcs
    rcases hset with ⟨rfl, hns⟩ | ⟨rfl, hns⟩
    · by_cases hb : g.blueSettled <;>
        simp [Game.settle, Game.checkPhaseWin, hst, hns, hfs, hcs, hb]
    · by_cases hb : g.redSettled <;>
        simp [Game.settle, Game.checkPhaseWin, hst, hns, hfs, hcs, hb]
  · intro hst hfs hset
    rcases hset with ⟨rfl, hns⟩ | ⟨rfl, hns⟩
    · by_cases hb : g.blueSettled <;>
        simp [Game.settle, Game.checkPhaseWin, hst, hns, hfs, hb]
    · by_cases hb : g.redSettled <;>
        simp [Game.settle, Game.checkPhaseWin, hst, hns, hfs, hb]
  · intro hst hset
    rcases hset with ⟨rfl, hs⟩ | ⟨rfl, hs⟩ <;> simp [Game.settle, hst, hs]

/-- C4 witness: on concrete phase games — a fresh game rejects red's settle
with CannotSettleYet; with 2 marks in row 4 red settles and becomes
firstSettler; after red settled, blue settles with zero row-4 marks; red
settling again gets AlreadySettled. -/
theorem c4_settle_preconditions_witness :
    g4a.settle PlayerColor.red = (g4a, some GErr.cannotSettleYet) ∧
    ((g4b.settle PlayerColor.red).2 = Option.none ∧
      (g4b.settle PlayerColor.red).1.firstSettler = PlayerColor.red) ∧
    (g4c.settle PlayerColor.blue).2 = Option.none ∧
    g4c.settle PlayerColor.red = (g4c, some GErr.alreadySettled) := by
  refine ⟨(c4_settle_preconditions g4a PlayerColor.red).1 (by decide) (by decide)
            (by decide) (by decide) (Or.inl rfl) (by decide),
          (c4_settle_preconditions g4b PlayerColor.red).2.1 (by decide) (by decide)
            (Or.inl ⟨rfl, by decide⟩) (by decide),
          (c4_settle_preconditions g4c PlayerColor.blue).2.2.1 (by decide) (by decide)
            (Or.inr ⟨rfl, by decide⟩),
          (c4_settle_preconditions g4c PlayerColor.red).2.2.2 (by decide)
            (Or.inl ⟨rfl, by decide⟩)⟩

/-- C7: Room.MarkCell dispatch — spectators always rejected; a player is
rejected unless the requested color is their own, else routed to the
constrained Game.MarkCell; a referee is routed to MarkCellForce under the
normal rule but to the constrained Game.MarkCell under blackout and phase;
and a successful MarkCellForce unconditionally overwrites markedBy and
clears secondMark and times. -/
theorem c7_markCell_dispatch (r : Room) (uid : String) (row col : Int)
    (color : PlayerColor) (u : User) (hu : r.findUser uid = some u) :
    (u.role = UserRole.spectator →
      r.markCell uid row col color = (r, some GErr.spectatorsCannotMark)) ∧
    (u.role = UserRole.player → color ≠ u.playerColor →
      r.markCell uid row col color = (r, some GErr.canOnlyMarkOwnColor)) ∧
    (u.role = UserRole.player → color = u.playerColor →
      r.markCell uid row col color
        = ({ r with game := (r.game.markCell row col color).1 },
           (r.game.markCell row col color).2)) ∧
    (u.role = UserRole.referee →
      (r.game.rule = GameRule.blackout ∨ r.game.rule = GameRule.phase) →
      r.markCell uid row col color
        = ({ r with game := (r.game.markCell row col color).1 },
           (r.game.markCell row col color).2)) ∧
    (u.role = UserRole.referee → r.game.rule = GameRule.normal →
      r.markCell uid row col color
        = ({ r with game := (r.game.markCellForce row col color).1 },
           (r.game.markCellForce row col color).2)) ∧
    (r.game.status ≠ GameStatus.waiting →
      0 ≤ row → row ≤ 4 → 0 ≤ col → col ≤ 4 →
      ((r.game.markCellForce row col color).1.board row.toNat col.toNat).markedBy
          = color ∧
      ((r.game.markCellForce row col color).1.board row.toNat col.toNat).secondMark
          = PlayerColor.none ∧
      ((r.game.markCellForce row col color).1.board row.toNat col.toNat).times = 0 ∧
      (r.game.markCellForce row col color).2 = Option.none) := by
  refine ⟨?_, ?_, ?_, ?_, ?_, ?_⟩
  · intro hrole
    simp [Room.markCell, hu, hrole]
  · intro hrole hcol
    simp [Room.markCell, hu, hrole, hcol]
  · intro hrole hcol
    simp [Room.markCell, hu, hrole, hcol]
  · intro hrole hbp
    rcases hbp with hb | hb <;> simp [Room.markCell, hu, hrole, hb]
  · intro hrole hn
    simp [Room.markCell, hu, hrole, hn]
  · intro hw h1 h2 h3 h4
    have hnb : ¬(row < 0 ∨ row > 4 ∨ col < 0 ∨ col > 4) := by omega
    unfold Game.markCellForce
    simp only [if_neg hw, if_neg hnb]
    dsimp only
    constructor
    · split
      · rw [(checkWin_fields _).1]
        simp [setCell]
      · simp [setCell]
    constructor
    · split
      · rw [(checkWin_fields _).1]
        simp [setCell]
      · simp [setCell]
    constructor
    · split
      · rw [(checkWin_fields _).1]
        simp [setCell]
      · simp [setCell]
    · trivial

/-- C7 witness: in a blackout room the spectator is rejected, the red player
cannot mark blue but marks red through the constrained path, the referee
also goes through the constrained path; in a normal-rule room the referee
goes through MarkCellForce, which overwrites the cell. -/
theorem c7_markCell_dispatch_witness :
    c7room.markCell "s1" 0 0 PlayerColor.red
        = (c7room, some GErr.spectatorsCannotMark) ∧
    c7room.markCell "p1" 0 0 PlayerColor.blue
        = (c7room, some GErr.canOnlyMarkOwnColor) ∧
    c7room.markCell "p1" 0 0 PlayerColor.red
        = ({ c7room with game := (c7room.game.markCell 0 0 PlayerColor.red).1 },
           (c7room.game.markCell 0 0 PlayerColor.red).2) ∧
    c7room.markCell "ref1" 0 0 PlayerColor.red
        = ({ c7room with game := (c7room.game.markCell 0 0 PlayerColor.red).1 },
           (c7room.game.markCell 0 0 PlayerColor.red).2) ∧
    c7roomN.markCell "ref1" 0 0 PlayerColor.red
        = ({ c7roomN with game := (c7roomN.game.markCellForce 0 0 PlayerColor.red).1 },
           (c7roomN.game.markCellForce 0 0 PlayerColor.red).2) ∧
    ((c7roomN.game.markCellForce 0 0 PlayerColor.red).1.board 0 0).markedBy
        = PlayerColor.red := by
  refine ⟨(c7_markCell_dispatch c7room "s1" 0 0 PlayerColor.red spectatorUser
            (by decide)).1 rfl,
          (c7_markCell_dispatch c7room "p1" 0 0 PlayerColor.blue redPlayerUser
            (by decide)).2.1 rfl (by decide),
          (c7_markCell_dispatch c7room "p1" 0 0 PlayerColor.red redPlayerUser
            (by decide)).2.2.1 rfl rfl,
          (c7_markCell_dispatch c7room "ref1" 0 0 PlayerColor.red refereeUser
            (by decide)).2.2.2.1 rfl (Or.inl (by decide)),
          (c7_markCell_dispatch c7roomN "ref1" 0 0 PlayerColor.red refereeUser
            (by decide)).2.2.2.2.1 rfl (by decide),
          ((c7_markCell_dispatch c7roomN "ref1" 0 0 PlayerColor.red refereeUser
            (by decide)).2.2.2.2.2 (by decide) (by decide) (by decide) (by decide)
            (by decide)).1⟩

/-- C8: whenever a mutating operation returns an error, the game and room
state is exactly unchanged, and the handler answers the requesting
connection with a structured error and performs no broadcast (a broadcast
happens only on success). -/
theorem c8_error_atomicity :
    (∀ (g : Game) (row col : Int) (p : PlayerColor) (e : GErr),
      (g.markCell row col p).2 = some e → (g.markCell row col p).1 = g) ∧
    (∀ (g : Game) (row col : Int) (p : PlayerColor) (e : GErr),
      (g.markCellForce row col p).2 = some e → (g.markCellForce row col p).1 = g) ∧
    (∀ (g : Game) (row col : Int) (e : GErr),
      (g.unmarkCell row col).2 = some e → (g.unmarkCell row col).1 = g) ∧
    (∀ (g : Game) (row col : Int) (p : PlayerColor) (e : GErr),
      (g.clearCellMark row col p).2 = some e → (g.clearCellMark row col p).1 = g) ∧
    (∀ (g : Game) (p : PlayerColor) (e : GErr),
      (g.settle p).2 = some e → (g.settle p).1 = g) ∧
    (∀ (g : Game) (e : GErr), (g.start).2 = some e → (g.start).1 = g) ∧
    (∀ (g : Game) (row col : Int) (t : String) (e : GErr),
      (g.setCellText row col t).2 = some e → (g.setCellText row col t).1 = g) ∧
    (∀ (g : Game) (ts : List String) (e : GErr),
      (g.setAllCellTexts ts).2 = some e → (g.setAllCellTexts ts).1 = g) ∧
    (∀ (r : Room) (uid : String) (row col : Int) (p : PlayerColor) (e : GErr),
      (r.markCell uid row col p).2 = some e → (r.markCell uid row col p).1 = r) ∧
    (∀ (r : Room) (uid : String) (row col : Int) (e : GErr),
      (r.unmarkCell uid row col).2 = some e → (r.unmarkCell uid row col).1 = r) ∧
    (∀ (r : Room) (uid : String) (row col : Int) (p : PlayerColor) (e : GErr),
      (r.clearCellMark uid row col p).2 = some e → (r.clearCellMark uid row col p).1 = r) ∧
    (∀ (r : Room) (uid : String) (p : PlayerColor) (e : GErr),
      (r.settle uid p).2 = some e → (r.settle uid p).1 = r) ∧
    (∀ (r : Room) (uid : String) (rule : GameRule) (cfg : PhaseConfig) (e : GErr),
      (r.setGameRule uid rule cfg).2 = some e → (r.setGameRule uid rule cfg).1 = r) ∧
    (∀ (r : Room) (uid : String) (e : GErr),
      (r.startGame uid).2 = some e → (r.startGame uid).1 = r) ∧
    (∀ (r : Room) (uid : String) (e : GErr),
      (r.resetGame uid).2 = some e → (r.resetGame uid).1 = r) ∧
    (∀ (r : Room) (uid : String) (row col : Int) (t : String) (e : GErr),
      (r.setCellText uid row col t).2 = some e → (r.setCellText uid row col t).1 = r) ∧
    (∀ (r : Room) (uid : String) (ts : List String) (e : GErr),
      (r.setAllCellTexts uid ts).2 = some e → (r.setAllCellTexts uid ts).1 = r) ∧
    (∀ (r : Room) (uid : String) (row col : Int) (p : PlayerColor) (e : GErr),
      (r.markCell uid row col p).2 = some e →
        handleMarkCell r uid row col p = (r, Response.errorOnly 403)) ∧
    (∀ (r : Room) (uid : String) (row col : Int) (p : PlayerColor),
      (r.markCell uid row col p).2 = Option.none →
        handleMarkCell r uid row col p
          = ((r.markCell uid row col p).1, Response.broadcast)) := by
  refine ⟨markCell_err, markCellForce_err, unmarkCell_err, clearCellMark_err,
          settle_err, start_err, setCellText_err, setAllCellTexts_err,
          roomMarkCell_err, roomUnmarkCell_err, roomClearCellMark_err,
          roomSettle_err, roomSetGameRule_err, roomStartGame_err,
          roomResetGame_err, roomSetCellText_err, roomSetAllCellTexts_err,
          ?_, ?_⟩
  · intro r uid row col p e h
    unfold handleMarkCell
    dsimp only
    simp only [h]
    rw [roomMarkCell_err r uid row col p e h]
  · intro r uid row col p h
    unfold handleMarkCell
    dsimp only
    simp only [h]

/-- C8 witness: concrete erroring calls for every operation leave the state
unchanged, and an erroring handler dispatch answers with the structured
error and no broadcast. -/
theorem c8_error_atomicity_witness :
    ((newGame .normal).markCell 0 0 PlayerColor.red).1 = newGame .normal ∧
    ((newGame .normal).markCellForce 0 0 PlayerColor.red).1 = newGame .normal ∧
    ((newGame .normal).unmarkCell 0 0).1 = newGame .normal ∧
    ((newGame .normal).clearCellMark 0 0 PlayerColor.red).1 = newGame .normal ∧
    ((newGame .normal).settle PlayerColor.red).1 = newGame .normal ∧
    (g4a.start).1 = g4a ∧
    ((newGame .normal).setCellText (-1) 0 "x").1 = newGame .normal ∧
    ((newGame .normal).setAllCellTexts []).1 = newGame .normal ∧
    (sampleRoom.markCell "x" 0 0 PlayerColor.red).1 = sampleRoom ∧
    (sampleRoom.unmarkCell "x" 0 0).1 = sampleRoom ∧
    (sampleRoom.clearCellMark "x" 0 0 PlayerColor.red).1 = sampleRoom ∧
    (sampleRoom.settle "x" PlayerColor.red).1 = sampleRoom ∧
    (sampleRoom.setGameRule "x" GameRule.phase defaultPhaseConfig).1 = sampleRoom ∧
    (sampleRoom.startGame "x").1 = sampleRoom ∧
    (sampleRoom.resetGame "x").1 = sampleRoom ∧
    (sampleRoom.setCellText "x" 0 0 "t").1 = sampleRoom ∧
    (sampleRoom.setAllCellTexts "x" []).1 = sampleRoom ∧
    handleMarkCell sampleRoom "x" 0 0 PlayerColor.red
        = (sampleRoom, Response.errorOnly 403) := by
  refine ⟨c8_error_atomicity.1 _ 0 0 _ GErr.gameNotStarted (by decide),
          c8_error_atomicity.2.1 _ 0 0 _ GErr.gameNotStarted (by decide),
          c8_error_atomicity.2.2.1 _ 0 0 GErr.gameNotStarted (by decide),
          c8_error_atomicity.2.2.2.1 _ 0 0 _ GErr.gameNotStarted (by decide),
          c8_error_atomicity.2.2.2.2.1 _ _ GErr.gameNotStarted (by decide),
          c8_error_atomicity.2.2.2.2.2.1 _ GErr.gameAlreadyInProgress (by decide),
          c8_error_atomicity.2.2.2.2.2.2.1 _ (-1) 0 "x" GErr.invalidPosition (by decide),
          c8_error_atomicity.2.2.2.2.2.2.2.1 _ [] GErr.invalidTextsLength (by decide),
          c8_error_atomicity.2.2.2.2.2.2.2.2.1 _ "x" 0 0 _ GErr.userNotFound (by decide),
          c8_error_atomicity.2.2.2.2.2.2.2.2.2.1 _ "x" 0 0 GErr.userNotFound (by decide),
          c8_error_atomicity.2.2.2.2.2.2.2.2.2.2.1 _ "x" 0 0 _ GErr.userNotFound (by decide),
          c8_error_atomicity.2.2.2.2.2.2.2.2.2.2.2.1 _ "x" _ GErr.userNotFound (by decide),
          c8_error_atomicity.2.2.2.2.2.2.2.2.2.2.2.2.1 _ "x" _ _ GErr.notOwner (by decide),
          c8_error_atomicity.2.2.2.2.2.2.2.2.2.2.2.2.2.1 _ "x" GErr.notOwner (by decide),
          c8_error_atomicity.2.2.2.2.2.2.2.2.2.2.2.2.2.2.1 _ "x" GErr.notOwner (by decide),
          c8_error_atomicity.2.2.2.2.2.2.2.2.2.2.2.2.2.2.2.1 _ "x" 0 0 "t" GErr.notOwner (by decide),
          c8_error_atomicity.2.2.2.2.2.2.2.2.2.2.2.2.2.2.2.2.1 _ "x" [] GErr.notOwner (by decide),
          c8_error_atomicity.2.2.2.2.2.2.2.2.2.2.2.2.2.2.2.2.2.1 _ "x" 0 0 _ GErr.userNotFound (by decide)⟩


/-- C5: when the second color settles (both settled after a successful
Settle), the game finishes with reason phase, each color's score is the
spec sum (row scores for primary claims, second-half scores for secondary
claims, Bingo bonus to the achiever, final bonus to the first settler),
the higher score wins and a tie goes to the first settler. -/
theorem c5_phase_settlement (g : Game) (c : PlayerColor)
    (hok : (g.settle c).2 = Option.none)
    (hr : (g.settle c).1.redSettled = true)
    (hb : (g.settle c).1.blueSettled = true) :
    (g.settle c).1.status = GameStatus.finished ∧
    (g.settle c).1.winner = some
      { winner :=
          if specPhaseScore (g.settle c).1 PlayerColor.red
              > specPhaseScore (g.settle c).1 PlayerColor.blue then PlayerColor.red
          else if specPhaseScore (g.settle c).1 PlayerColor.blue
              > specPhaseScore (g.settle c).1 PlayerColor.red then PlayerColor.blue
          else (g.settle c).1.firstSettler,
        reason := WinReason.phase,
        redScore := specPhaseScore (g.settle c).1 PlayerColor.red,
        blueScore := specPhaseScore (g.settle c).1 PlayerColor.blue } := by
  have h1 : g.status = GameStatus.playing := by
    by_contra h1
    simp [Game.settle, h1] at hok
  have h2 : ¬(c = PlayerColor.red ∧ g.redSettled = true) := by
    intro h2
    simp [Game.settle, h1, h2] at hok
  have h3 : ¬(c = PlayerColor.blue ∧ g.blueSettled = true) := by
    intro h3
    simp [Game.settle, h1, h2, h3] at hok
  have h4 : ¬(g.firstSettler = PlayerColor.none ∧ ¬ g.canSettle c = true) := by
    intro h4
    simp [Game.settle, h1, h2, h3, h4] at hok
  have heq : g.settle c =
      (if (settleCore g c).redSettled = true ∧ (settleCore g c).blueSettled = true
       then ((settleCore g c).checkPhaseWin, Option.none)
       else (settleCore g c, Option.none)) := by
    unfold Game.settle settleCore
    rw [if_neg (show ¬(g.status ≠ GameStatus.playing) from by simp [h1]),
        if_neg h2, if_neg h3, if_neg h4]
  rw [heq] at hr hb ⊢
  by_cases hfin : (settleCore g c).redSettled = true ∧ (settleCore g c).blueSettled = true
  · rw [if_pos hfin] at hr hb ⊢
    exact checkPhaseWin_spec (settleCore g c)
  · rw [if_neg hfin] at hr hb
    exact absurd ⟨hr, hb⟩ hfin

/-- C5 witness: with red settled first on a fresh phase game, blue's settle
succeeds, both are settled, and the recorded winner carries the spec
scores with the tie broken in favor of red, the first settler. -/
theorem c5_phase_settlement_witness :
    (g5.settle PlayerColor.blue).2 = Option.none ∧
    (g5.settle PlayerColor.blue).1.redSettled = true ∧
    (g5.settle PlayerColor.blue).1.blueSettled = true ∧
    (g5.settle PlayerColor.blue).1.status = GameStatus.finished ∧
    (g5.settle PlayerColor.blue).1.winner = some
      { winner :=
          if specPhaseScore (g5.settle PlayerColor.blue).1 PlayerColor.red
              > specPhaseScore (g5.settle PlayerColor.blue).1 PlayerColor.blue
            then PlayerColor.red
          else if specPhaseScore (g5.settle PlayerColor.blue).1 PlayerColor.blue
              > specPhaseScore (g5.settle PlayerColor.blue).1 PlayerColor.red
            then PlayerColor.blue
          else (g5.settle PlayerColor.blue).1.firstSettler,
        reason := WinReason.phase,
        redScore := specPhaseScore (g5.settle PlayerColor.blue).1 PlayerColor.red,
        blueScore := specPhaseScore (g5.settle PlayerColor.blue).1 PlayerColor.blue } := by
  have hok : (g5.settle PlayerColor.blue).2 = Option.none := by decide
  have hr : (g5.settle PlayerColor.blue).1.redSettled = true := by decide
  have hb : (g5.settle PlayerColor.blue).1.blueSettled = true := by decide
  exact ⟨hok, hr, hb, (c5_phase_settlement g5 PlayerColor.blue hok hr hb).1,
         (c5_phase_settlement g5 PlayerColor.blue hok hr hb).2⟩

theorem recheckPhaseRowUnlock_board (g : Game) (p : PlayerColor) :
    (g.recheckPhaseRowUnlock p).board = g.board := by
  unfold Game.recheckPhaseRowUnlock
  split_ifs <;> rfl

theorem recheckPhaseRowUnlock_rule (g : Game) (p : PlayerColor) :
    (g.recheckPhaseRowUnlock p).rule = g.rule := by
  unfold Game.recheckPhaseRowUnlock
  split_ifs <;> rfl

theorem recheckPhaseBingo_board (g : Game) : (g.recheckPhaseBingo).board = g.board :=
  (sameCore_recheckPhaseBingo g).1

theorem recheckPhaseBingo_rule (g : Game) : (g.recheckPhaseBingo).rule = g.rule :=
  (sameCore_recheckPhaseBingo g).2.1

theorem checkPhaseBingo_board (g : Game) : ((g.checkPhaseBingo).1).board = g.board :=
  (sameCore_checkPhaseBingo g).1

theorem checkPhaseBingo_rule (g : Game) : ((g.checkPhaseBingo).1).rule = g.rule :=
  (sameCore_checkPhaseBingo g).2.1

theorem blackoutTimesInv_checkWin (g : Game) (h : g.blackoutTimesInv) :
    (g.checkWin).blackoutTimesInv := by
  intro r c
  rw [(checkWin_fields g).1]
  exact h r c

theorem bk_promoted_ok (cell : Cell) (p : PlayerColor) (hp : p ≠ PlayerColor.none)
    (h1 : cell.markedBy = p)
    (ht : cellTimesBlackoutOk cell) (hpr : cellPromoteOk cell) :
    cellTimesBlackoutOk { cell with
      markedBy := cell.secondMark,
      secondMark := PlayerColor.none,
      times := if cell.times > 0 then cell.times - 1 else cell.times } ∧
    cellPromoteOk { cell with
      markedBy := cell.secondMark,
      secondMark := PlayerColor.none,
      times := if cell.times > 0 then cell.times - 1 else cell.times } := by
  have hmb : cell.markedBy ≠ PlayerColor.none := fun hh => hp (h1.symm.trans hh)
  simp only [cellTimesBlackoutOk, cellPromoteOk, if_true] at ht ⊢
  constructor
  · rw [if_neg hmb] at ht
    split_ifs at ht ⊢ <;> omega
  · intro _
    first | rfl | trivial

theorem bk_secondCleared_ok (cell : Cell) (p : PlayerColor) (hp : p ≠ PlayerColor.none)
    (h2 : cell.secondMark = p)
    (ht : cellTimesBlackoutOk cell) (hpr : cellPromoteOk cell) :
    cellTimesBlackoutOk { cell with
      secondMark := PlayerColor.none,
      times := if cell.times > 0 then cell.times - 1 else cell.times } ∧
    cellPromoteOk { cell with
      secondMark := PlayerColor.none,
      times := if cell.times > 0 then cell.times - 1 else cell.times } := by
  have hsn : cell.secondMark ≠ PlayerColor.none := fun hh => hp (h2.symm.trans hh)
  have hmb : cell.markedBy ≠ PlayerColor.none := fun hh => hsn (hpr hh)
  simp only [cellTimesBlackoutOk, cellPromoteOk, if_true] at ht ⊢
  rw [if_neg hmb] at ht ⊢
  rw [if_neg hsn] at ht
  constructor
  · split_ifs at ht ⊢ <;> omega
  · intro hh
    exact absurd hh hmb

theorem ph_promoted_ok (cell : Cell) (ht : cellTimesPhaseOk cell) :
    cellTimesPhaseOk { cell with
      markedBy := cell.secondMark,
      secondMark := PlayerColor.none,
      times := if cell.times > 0 then cell.times - 1 else cell.times } := by
  simp only [cellTimesPhaseOk, if_true] at ht ⊢
  split_ifs at ht ⊢ <;> omega

theorem ph_secondCleared_ok (cell : Cell) (ht : cellTimesPhaseOk cell) :
    cellTimesPhaseOk { cell with
      secondMark := PlayerColor.none,
      times := if cell.times > 0 then cell.times - 1 else cell.times } := by
  simp only [cellTimesPhaseOk, if_true] at ht ⊢
  split_ifs at ht ⊢ <;> omega

theorem markBlackout_times (g : Game) (r c : Nat) (p : PlayerColor)
    (hinv : g.blackoutTimesInv) :
    ((g.markBlackout r c p).1).blackoutTimesInv ∧
    ((g.markBlackout r c p).1).rule = g.rule := by
  unfold Game.markBlackout
  dsimp only
  split_ifs with h1 h2 h3 h4
  · exact ⟨hinv, rfl⟩
  · exact ⟨hinv, rfl⟩
  · refine ⟨?_, rfl⟩
    intro i j
    dsimp only
    by_cases hij : i = r ∧ j = c
    · simp only [setCell, if_pos hij]
      have hsec : (g.board r c).secondMark = PlayerColor.none := (hinv r c).2 h3
      have hp : p ≠ PlayerColor.none := fun hpn => h1 (h3.trans hpn.symm)
      constructor
      · simp [cellTimesBlackoutOk, hsec, hp]
      · intro hmb
        exact absurd hmb hp
    · simp only [setCell, if_neg hij]
      exact hinv i j
  · refine ⟨?_, rfl⟩
    intro i j
    dsimp only
    by_cases hij : i = r ∧ j = c
    · simp only [setCell, if_pos hij]
      have hp : p ≠ PlayerColor.none := fun hpn => h2 (h4.trans hpn.symm)
      constructor
      · simp [cellTimesBlackoutOk, h3, hp]
      · intro hmb
        exact absurd hmb h3
    · simp only [setCell, if_neg hij]
      exact hinv i j
  · exact ⟨hinv, rfl⟩

theorem markCell_blackout_times (g : Game) (row col : Int) (p : PlayerColor)
    (hrule : g.rule = GameRule.blackout) (hinv : g.blackoutTimesInv) :
    ((g.markCell row col p).1).blackoutTimesInv ∧
    ((g.markCell row col p).1).rule = g.rule := by
  have hm := markBlackout_times g row.toNat col.toNat p hinv
  unfold Game.markCell
  by_cases hw : g.status = GameStatus.waiting
  · rw [if_pos hw]
    exact ⟨hinv, rfl⟩
  rw [if_neg hw]
  by_cases hf : g.status = GameStatus.finished
  · rw [if_pos hf]
    exact ⟨hinv, rfl⟩
  rw [if_neg hf]
  by_cases hbd : row < 0 ∨ row > 4 ∨ col < 0 ∨ col > 4
  · rw [if_pos hbd]
    exact ⟨hinv, rfl⟩
  rw [if_neg hbd]
  dsimp only
  rw [hrule]
  rcases hr2 : (g.markBlackout row.toNat col.toNat p).2 with _ | e
  · simp only [hr2]
    rw [if_pos (by simp [hm.2, hrule])]
    exact ⟨blackoutTimesInv_checkWin _ hm.1,
      ((checkWin_fields _).2.1).trans (hm.2.trans hrule)⟩
  · simp only [hr2]
    have he := markBlackout_err g row.toNat col.toNat p e hr2
    rw [he]
    exact ⟨hinv, hrule⟩


theorem unmark_blackout_times (g : Game) (row col : Int)
    (hrule : g.rule = GameRule.blackout) (hinv : g.blackoutTimesInv) :
    ((g.unmarkCell row col).1).blackoutTimesInv ∧
    ((g.unmarkCell row col).1).rule = g.rule := by
  have hnp : ¬(g.rule = GameRule.phase) := by simp [hrule]
  unfold Game.unmarkCell
  by_cases hw : g.status = GameStatus.waiting
  · rw [if_pos hw]
    exact ⟨hinv, rfl⟩
  rw [if_neg hw]
  by_cases hbd : row < 0 ∨ row > 4 ∨ col < 0 ∨ col > 4
  · rw [if_pos hbd]
    exact ⟨hinv, rfl⟩
  rw [if_neg hbd]
  dsimp only
  rw [if_neg hnp]
  split_ifs with hc
  · refine ⟨blackoutTimesInv_checkWin _ ?_, (checkWin_fields _).2.1⟩
    intro i j
    dsimp only
    by_cases hij : i = row.toNat ∧ j = col.toNat
    · simp only [setCell, if_pos hij]
      exact ⟨by simp [cellTimesBlackoutOk], fun _ => rfl⟩
    · simp only [setCell, if_neg hij]
      exact hinv i j
  · simp [hrule] at hc

theorem clear_blackout_times (g : Game) (row col : Int) (p : PlayerColor)
    (hp : p ≠ PlayerColor.none) (hrule : g.rule = GameRule.blackout)
    (hinv : g.blackoutTimesInv) :
    ((g.clearCellMark row col p).1).blackoutTimesInv ∧
    ((g.clearCellMark row col p).1).rule = g.rule := by
  have hbk : GameRule.blackout ≠ GameRule.phase := by decide
  unfold Game.clearCellMark
  by_cases hw : g.status = GameStatus.waiting
  · rw [if_pos hw]
    exact ⟨hinv, rfl⟩
  rw [if_neg hw]
  by_cases hbd : row < 0 ∨ row > 4 ∨ col < 0 ∨ col > 4
  · rw [if_pos hbd]
    exact ⟨hinv, rfl⟩
  rw [if_neg hbd]
  dsimp only
  by_cases hm1 : (g.board row.toNat col.toNat).markedBy = p
  · rw [if_pos hm1]
    dsimp only
    rw [if_neg (fun hcon => hbk (hrule.symm.trans hcon.1))]
    refine ⟨?_, rfl⟩
    intro i j
    dsimp only
    by_cases hij : i = row.toNat ∧ j = col.toNat
    · simp only [setCell, if_pos hij]
      exact bk_promoted_ok (g.board row.toNat col.toNat) p hp hm1
        (hinv row.toNat col.toNat).1 (hinv row.toNat col.toNat).2
    · simp only [setCell, if_neg hij]
      exact hinv i j
  · rw [if_neg hm1]
    by_cases hm2 : (g.board row.toNat col.toNat).secondMark = p
    · rw [if_pos hm2]
      dsimp only
      rw [if_neg (fun hcon => hbk (hrule.symm.trans hcon.1))]
      refine ⟨?_, rfl⟩
      intro i j
      dsimp only
      by_cases hij : i = row.toNat ∧ j = col.toNat
      · simp only [setCell, if_pos hij]
        exact bk_secondCleared_ok (g.board row.toNat col.toNat) p hp hm2
          (hinv row.toNat col.toNat).1 (hinv row.toNat col.toNat).2
      · simp only [setCell, if_neg hij]
        exact hinv i j
    · rw [if_neg hm2]
      dsimp only
      rw [if_neg (fun hcon => by simp at hcon)]
      exact ⟨hinv, rfl⟩

theorem times_goal_step (g1 : Game) (grule : GameRule) (cond : Prop) [Decidable cond]
    (hinv : g1.phaseTimesInv) (hrule : g1.rule = grule) :
    (if cond then (g1.checkPhaseBingo).1 else g1).phaseTimesInv ∧
    (if cond then (g1.checkPhaseBingo).1 else g1).rule = grule := by
  by_cases h : cond
  · rw [if_pos h]
    refine ⟨fun i j => ?_, (checkPhaseBingo_rule g1).trans hrule⟩
    rw [checkPhaseBingo_board]
    exact hinv i j
  · rw [if_neg h]
    exact ⟨hinv, hrule⟩

theorem markPhase_times (g : Game) (row col : Nat) (p : PlayerColor)
    (hinv : g.phaseTimesInv) :
    ((g.markPhase row col p).1).phaseTimesInv ∧
    ((g.markPhase row col p).1).rule = g.rule := by
  by_cases hp : p = PlayerColor.red
  · subst hp
    unfold Game.markPhase
    dsimp only
    simp only [reduceIte]
    by_cases hlock : (row : Int) > g.redUnlockedRow
    · rw [if_pos hlock]
      exact ⟨hinv, rfl⟩
    rw [if_neg hlock]
    by_cases hlim : g.redRowMarks row ≥ g.phaseConfig.cellsPerRow
    · rw [if_pos hlim]
      exact ⟨hinv, rfl⟩
    rw [if_neg hlim]
    by_cases hdup : (g.board row col).markedBy = PlayerColor.red ∨
        (g.board row col).secondMark = PlayerColor.red
    · rw [if_pos hdup]
      exact ⟨hinv, rfl⟩
    rw [if_neg hdup]
    dsimp only
    refine times_goal_step _ _ _ ?_ ?_
    · intro i j
      dsimp only
      by_cases hmb : (g.board row col).markedBy = PlayerColor.none
      · rw [if_pos hmb]
        by_cases hij : i = row ∧ j = col
        · simp only [setCell, if_pos hij]
          exact hinv row col
        · simp only [setCell, if_neg hij]
          exact hinv i j
      · rw [if_neg hmb]
        by_cases hsec : (g.board row col).secondMark = PlayerColor.none
        · rw [if_pos hsec]
          by_cases hij : i = row ∧ j = col
          · simp only [setCell, if_pos hij]
            have hpn : (PlayerColor.red : PlayerColor) ≠ PlayerColor.none := by decide
            simp [cellTimesPhaseOk, hpn]
          · simp only [setCell, if_neg hij]
            exact hinv i j
        · rw [if_neg hsec]
          exact hinv i j
    · rfl
  · unfold Game.markPhase
    dsimp only
    simp only [if_neg hp]
    by_cases hlock : (row : Int) > g.blueUnlockedRow
    · rw [if_pos hlock]
      exact ⟨hinv, rfl⟩
    rw [if_neg hlock]
    by_cases hlim : g.blueRowMarks row ≥ g.phaseConfig.cellsPerRow
    · rw [if_pos hlim]
      exact ⟨hinv, rfl⟩
    rw [if_neg hlim]
    by_cases hdup : (g.board row col).markedBy = p ∨ (g.board row col).secondMark = p
    · rw [if_pos hdup]
      exact ⟨hinv, rfl⟩
    rw [if_neg hdup]
    dsimp only
    refine times_goal_step _ _ _ ?_ ?_
    · intro i j
      dsimp only
      by_cases hmb : (g.board row col).markedBy = PlayerColor.none
      · rw [if_pos hmb]
        by_cases hij : i = row ∧ j = col
        · simp only [setCell, if_pos hij]
          exact hinv row col
        · simp only [setCell, if_neg hij]
          exact hinv i j
      · rw [if_neg hmb]
        by_cases hsec : (g.board row col).secondMark = PlayerColor.none
        · rw [if_pos hsec]
          by_cases hij : i = row ∧ j = col
          · simp only [setCell, if_pos hij]
            have hpn : p ≠ PlayerColor.none :=
              fun hh => hdup (Or.inr (hsec.trans hh.symm))
            simp [cellTimesPhaseOk, hpn]
          · simp only [setCell, if_neg hij]
            exact hinv i j
        · rw [if_neg hsec]
          exact hinv i j
    · rfl

theorem unmark_leaf_times (gd g2 : Game) (b : Board) (grule : GameRule)
    (hg2 : g2 = gd.recheckPhaseBingo)
    (hrule : gd.rule = GameRule.phase) (hruleT : gd.rule = grule)
    (hb : ∀ i j : Nat, cellTimesPhaseOk (b i j)) :
    (if g2.rule ≠ GameRule.phase then ({ g2 with board := b }).checkWin
     else { g2 with board := b }).phaseTimesInv ∧
    (if g2.rule ≠ GameRule.phase then ({ g2 with board := b }).checkWin
     else { g2 with board := b }).rule = grule := by
  subst hg2
  have h1 : (gd.recheckPhaseBingo).rule = GameRule.phase :=
    (recheckPhaseBingo_rule gd).trans hrule
  rw [if_neg (by simp [h1])]
  constructor
  · intro i j
    exact hb i j
  · show (gd.recheckPhaseBingo).rule = grule
    exact (recheckPhaseBingo_rule gd).trans hruleT

theorem clear_leaf_times (gb : Game) (q : PlayerColor) (grule : GameRule)
    (hruleT : gb.rule = grule) (hinv : gb.phaseTimesInv) :
    ((gb.recheckPhaseRowUnlock q).recheckPhaseBingo).phaseTimesInv ∧
    ((gb.recheckPhaseRowUnlock q).recheckPhaseBingo).rule = grule := by
  constructor
  · intro i j
    rw [recheckPhaseBingo_board, recheckPhaseRowUnlock_board]
    exact hinv i j
  · rw [recheckPhaseBingo_rule, recheckPhaseRowUnlock_rule]
    exact hruleT

theorem unmark_phase_times (g : Game) (row col : Int)
    (hphase : g.rule = GameRule.phase) (hinv : g.phaseTimesInv) :
    ((g.unmarkCell row col).1).phaseTimesInv ∧
    ((g.unmarkCell row col).1).rule = g.rule := by
  have negFF : ¬(false = true ∨ false = true) := by simp
  unfold Game.unmarkCell
  by_cases hw : g.status = GameStatus.waiting
  · rw [if_pos hw]
    exact ⟨hinv, rfl⟩
  rw [if_neg hw]
  by_cases hbd : row < 0 ∨ row > 4 ∨ col < 0 ∨ col > 4
  · rw [if_pos hbd]
    exact ⟨hinv, rfl⟩
  rw [if_neg hbd]
  dsimp only
  rw [if_pos hphase]
  by_cases cA1 : (g.board row.toNat col.toNat).markedBy = PlayerColor.red ∧
      g.redRowMarks row.toNat > 0
  · rw [if_pos cA1]
    dsimp only
    by_cases cB1 : (g.board row.toNat col.toNat).secondMark = PlayerColor.red ∧
        updRow g.redRowMarks row.toNat (g.redRowMarks row.toNat - 1) row.toNat > 0
    · rw [if_pos cB1]
      dsimp only
      rw [if_pos (Or.inl rfl), if_neg negFF]
      refine unmark_leaf_times _ _ _ _ rfl ?_ ?_ ?_
      · first
          | exact hphase
          | (simp only [recheckPhaseRowUnlock_rule]; exact hphase)
      · first
          | rfl
          | simp only [recheckPhaseRowUnlock_rule]
      · intro i j
        by_cases hij : i = row.toNat ∧ j = col.toNat
        · simp only [setCell, if_pos hij]
          simp [cellTimesPhaseOk]
        · simp only [setCell, if_neg hij]
          simp only [recheckPhaseBingo_board]
          (try simp only [recheckPhaseRowUnlock_board])
          exact hinv i j
    · rw [if_neg cB1]
      by_cases cB2 : (g.board row.toNat col.toNat).secondMark = PlayerColor.blue ∧
          g.blueRowMarks row.toNat > 0
      · rw [if_pos cB2]
        dsimp only
        rw [if_pos (Or.inl rfl), if_pos (Or.inr rfl)]
        refine unmark_leaf_times _ _ _ _ rfl ?_ ?_ ?_
        · first
            | exact hphase
            | (simp only [recheckPhaseRowUnlock_rule]; exact hphase)
        · first
            | rfl
            | simp only [recheckPhaseRowUnlock_rule]
        · intro i j
          by_cases hij : i = row.toNat ∧ j = col.toNat
          · simp only [setCell, if_pos hij]
            simp [cellTimesPhaseOk]
          · simp only [setCell, if_neg hij]
            simp only [recheckPhaseBingo_board]
            (try simp only [recheckPhaseRowUnlock_board])
            exact hinv i j
      · rw [if_neg cB2]
        dsimp only
        rw [if_pos (Or.inl rfl), if_neg negFF]
        refine unmark_leaf_times _ _ _ _ rfl ?_ ?_ ?_
        · first
            | exact hphase
            | (simp only [recheckPhaseRowUnlock_rule]; exact hphase)
        · first
            | rfl
            | simp only [recheckPhaseRowUnlock_rule]
        · intro i j
          by_cases hij : i = row.toNat ∧ j = col.toNat
          · simp only [setCell, if_pos hij]
            simp [cellTimesPhaseOk]
          · simp only [setCell, if_neg hij]
            simp only [recheckPhaseBingo_board]
            (try simp only [recheckPhaseRowUnlock_board])
            exact hinv i j
  · rw [if_neg cA1]
    by_cases cA2 : (g.board row.toNat col.toNat).markedBy = PlayerColor.blue ∧
        g.blueRowMarks row.toNat > 0
    · rw [if_pos cA2]
      dsimp only
      by_cases cB1 : (g.board row.toNat col.toNat).secondMark = PlayerColor.red ∧
          g.redRowMarks row.toNat > 0
      · rw [if_pos cB1]
        dsimp only
        rw [if_pos (Or.inr rfl), if_pos (Or.inl rfl)]
        refine unmark_leaf_times _ _ _ _ rfl ?_ ?_ ?_
        · first
            | exact hphase
            | (simp only [recheckPhaseRowUnlock_rule]; exact hphase)
        · first
            | rfl
            | simp only [recheckPhaseRowUnlock_rule]
        · intro i j
          by_cases hij : i = row.toNat ∧ j = col.toNat
          · simp only [setCell, if_pos hij]
            simp [cellTimesPhaseOk]
          · simp only [setCell, if_neg hij]
            simp only [recheckPhaseBingo_board]
            (try simp only [recheckPhaseRowUnlock_board])
            exact hinv i j
      · rw [if_neg cB1]
        by_cases cB2 : (g.board row.toNat col.toNat).secondMark = PlayerColor.blue ∧
            updRow g.blueRowMarks row.toNat (g.blueRowMarks row.toNat - 1) row.toNat > 0
        · rw [if_pos cB2]
          dsimp only
          rw [if_neg negFF, if_pos (Or.inl rfl)]
          refine unmark_leaf_times _ _ _ _ rfl ?_ ?_ ?_
          · first
              | exact hphase
              | (simp only [recheckPhaseRowUnlock_rule]; exact hphase)
          · first
              | rfl
              | simp only [recheckPhaseRowUnlock_rule]
          · intro i j
            by_cases hij : i = row.toNat ∧ j = col.toNat
            · simp only [setCell, if_pos hij]
              simp [cellTimesPhaseOk]
            · simp only [setCell, if_neg hij]
              simp only [recheckPhaseBingo_board]
              (try simp only [recheckPhaseRowUnlock_board])
              exact hinv i j
        · rw [if_neg cB2]
          dsimp only
          rw [if_neg negFF, if_pos (Or.inl rfl)]
          refine unmark_leaf_times _ _ _ _ rfl ?_ ?_ ?_
          · first
              | exact hphase
              | (simp only [recheckPhaseRowUnlock_rule]; exact hphase)
          · first
              | rfl
              | simp only [recheckPhaseRowUnlock_rule]
          · intro i j
            by_cases hij : i = row.toNat ∧ j = col.toNat
            · simp only [setCell, if_pos hij]
              simp [cellTimesPhaseOk]
            · simp only [setCell, if_neg hij]
              simp only [recheckPhaseBingo_board]
              (try simp only [recheckPhaseRowUnlock_board])
              exact hinv i j
    · rw [if_neg cA2]
      by_cases cB1 : (g.board row.toNat col.toNat).secondMark = PlayerColor.red ∧
          g.redRowMarks row.toNat > 0
      · rw [if_pos cB1]
        dsimp only
        rw [if_pos (Or.inr rfl), if_neg negFF]
        refine unmark_leaf_times _ _ _ _ rfl ?_ ?_ ?_
        · first
            | exact hphase
            | (simp only [recheckPhaseRowUnlock_rule]; exact hphase)
        · first
            | rfl
            | simp only [recheckPhaseRowUnlock_rule]
        · intro i j
          by_cases hij : i = row.toNat ∧ j = col.toNat
          · simp only [setCell, if_pos hij]
            simp [cellTimesPhaseOk]
          · simp only [setCell, if_neg hij]
            simp only [recheckPhaseBingo_board]
            (try simp only [recheckPhaseRowUnlock_board])
            exact hinv i j
      · rw [if_neg cB1]
        by_cases cB2 : (g.board row.toNat col.toNat).secondMark = PlayerColor.blue ∧
            g.blueRowMarks row.toNat > 0
        · rw [if_pos cB2]
          dsimp only
          rw [if_neg negFF, if_pos (Or.inr rfl)]
          refine unmark_leaf_times _ _ _ _ rfl ?_ ?_ ?_
          · first
              | exact hphase
              | (simp only [recheckPhaseRowUnlock_rule]; exact hphase)
          · first
              | rfl
              | simp only [recheckPhaseRowUnlock_rule]
          · intro i j
            by_cases hij : i = row.toNat ∧ j = col.toNat
            · simp only [setCell, if_pos hij]
              simp [cellTimesPhaseOk]
            · simp only [setCell, if_neg hij]
              simp only [recheckPhaseBingo_board]
              (try simp only [recheckPhaseRowUnlock_board])
              exact hinv i j
        · rw [if_neg cB2]
          dsimp only
          rw [if_neg negFF, if_neg negFF]
          refine unmark_leaf_times _ _ _ _ rfl ?_ ?_ ?_
          · first
              | exact hphase
              | (simp only [recheckPhaseRowUnlock_rule]; exact hphase)
          · first
              | rfl
              | simp only [recheckPhaseRowUnlock_rule]
          · intro i j
            by_cases hij : i = row.toNat ∧ j = col.toNat
            · simp only [setCell, if_pos hij]
              simp [cellTimesPhaseOk]
            · simp only [setCell, if_neg hij]
              simp only [recheckPhaseBingo_board]
              (try simp only [recheckPhaseRowUnlock_board])
              exact hinv i j

theorem clear_phase_times (g : Game) (row col : Int) (p : PlayerColor)
    (hphase : g.rule = GameRule.phase) (hinv : g.phaseTimesInv) :
    ((g.clearCellMark row col p).1).phaseTimesInv ∧
    ((g.clearCellMark row col p).1).rule = g.rule := by
  unfold Game.clearCellMark
  by_cases hw : g.status = GameStatus.waiting
  · rw [if_pos hw]
    exact ⟨hinv, rfl⟩
  rw [if_neg hw]
  by_cases hbd : row < 0 ∨ row > 4 ∨ col < 0 ∨ col > 4
  · rw [if_pos hbd]
    exact ⟨hinv, rfl⟩
  rw [if_neg hbd]
  dsimp only
  by_cases hm1 : (g.board row.toNat col.toNat).markedBy = p
  · rw [if_pos hm1]
    dsimp only
    rw [if_pos ⟨hphase, rfl⟩]
    by_cases hp : p = PlayerColor.red
    · subst hp
      by_cases hpos : g.redRowMarks row.toNat > 0
      · rw [if_pos ⟨rfl, hpos⟩]
        refine clear_leaf_times _ _ _ ?_ ?_
        · rfl
        · intro i j
          dsimp only
          by_cases hij : i = row.toNat ∧ j = col.toNat
          · simp only [setCell, if_pos hij]
            exact ph_promoted_ok _ (hinv row.toNat col.toNat)
          · simp only [setCell, if_neg hij]
            exact hinv i j
      · rw [if_neg (fun hcon => hpos hcon.2),
            if_neg (fun hcon => (by decide :
              PlayerColor.red ≠ PlayerColor.blue) hcon.1)]
        refine clear_leaf_times _ _ _ ?_ ?_
        · rfl
        · intro i j
          dsimp only
          by_cases hij : i = row.toNat ∧ j = col.toNat
          · simp only [setCell, if_pos hij]
            exact ph_promoted_ok _ (hinv row.toNat col.toNat)
          · simp only [setCell, if_neg hij]
            exact hinv i j
    · rw [if_neg (fun hcon => hp hcon.1)]
      by_cases hc2 : p = PlayerColor.blue ∧ g.blueRowMarks row.toNat > 0
      · rw [if_pos hc2]
        refine clear_leaf_times _ _ _ ?_ ?_
        · rfl
        · intro i j
          dsimp only
          by_cases hij : i = row.toNat ∧ j = col.toNat
          · simp only [setCell, if_pos hij]
            exact ph_promoted_ok _ (hinv row.toNat col.toNat)
          · simp only [setCell, if_neg hij]
            exact hinv i j
      · rw [if_neg hc2]
        refine clear_leaf_times _ _ _ ?_ ?_
        · rfl
        · intro i j
          dsimp only
          by_cases hij : i = row.toNat ∧ j = col.toNat
          · simp only [setCell, if_pos hij]
            exact ph_promoted_ok _ (hinv row.toNat col.toNat)
          · simp only [setCell, if_neg hij]
            exact hinv i j
  · rw [if_neg hm1]
    by_cases hm2 : (g.board row.toNat col.toNat).secondMark = p
    · rw [if_pos hm2]
      dsimp only
      rw [if_pos ⟨hphase, rfl⟩]
      by_cases hp : p = PlayerColor.red
      · subst hp
        by_cases hpos : g.redRowMarks row.toNat > 0
        · rw [if_pos ⟨rfl, hpos⟩]
          refine clear_leaf_times _ _ _ ?_ ?_
          · rfl
          · intro i j
            dsimp only
            by_cases hij : i = row.toNat ∧ j = col.toNat
            · simp only [setCell, if_pos hij]
              exact ph_secondCleared_ok _ (hinv row.toNat col.toNat)
            · simp only [setCell, if_neg hij]
              exact hinv i j
        · rw [if_neg (fun hcon => hpos hcon.2),
              if_neg (fun hcon => (by decide :
                PlayerColor.red ≠ PlayerColor.blue) hcon.1)]
          refine clear_leaf_times _ _ _ ?_ ?_
          · rfl
          · intro i j
            dsimp only
            by_cases hij : i = row.toNat ∧ j = col.toNat
            · simp only [setCell, if_pos hij]
              exact ph_secondCleared_ok _ (hinv row.toNat col.toNat)
            · simp only [setCell, if_neg hij]
              exact hinv i j
      · rw [if_neg (fun hcon => hp hcon.1)]
        by_cases hc2 : p = PlayerColor.blue ∧ g.blueRowMarks row.toNat > 0
        · rw [if_pos hc2]
          refine clear_leaf_times _ _ _ ?_ ?_
          · rfl
          · intro i j
            dsimp only
            by_cases hij : i = row.toNat ∧ j = col.toNat
            · simp only [setCell, if_pos hij]
              exact ph_secondCleared_ok _ (hinv row.toNat col.toNat)
            · simp only [setCell, if_neg hij]
              exact hinv i j
        · rw [if_neg hc2]
          refine clear_leaf_times _ _ _ ?_ ?_
          · rfl
          · intro i j
            dsimp only
            by_cases hij : i = row.toNat ∧ j = col.toNat
            · simp only [setCell, if_pos hij]
              exact ph_secondCleared_ok _ (hinv row.toNat col.toNat)
            · simp only [setCell, if_neg hij]
              exact hinv i j
    · rw [if_neg hm2]
      dsimp only
      rw [if_neg (fun hcon => (by simp at hcon : False))]
      exact ⟨hinv, rfl⟩

theorem markCell_phase_times (g : Game) (row col : Int) (p : PlayerColor)
    (hphase : g.rule = GameRule.phase) (hinv : g.phaseTimesInv) :
    ((g.markCell row col p).1).phaseTimesInv ∧
    ((g.markCell row col p).1).rule = g.rule := by
  have hm := markPhase_times g row.toNat col.toNat p hinv
  unfold Game.markCell
  by_cases hw : g.status = GameStatus.waiting
  · rw [if_pos hw]
    exact ⟨hinv, rfl⟩
  rw [if_neg hw]
  by_cases hf : g.status = GameStatus.finished
  · rw [if_pos hf]
    exact ⟨hinv, rfl⟩
  rw [if_neg hf]
  by_cases hbd : row < 0 ∨ row > 4 ∨ col < 0 ∨ col > 4
  · rw [if_pos hbd]
    exact ⟨hinv, rfl⟩
  rw [if_neg hbd]
  dsimp only
  rw [hphase]
  rcases hr2 : (g.markPhase row.toNat col.toNat p).2 with _ | e
  · simp only [hr2]
    rw [if_neg (by simp [hm.2.trans hphase])]
    exact ⟨hm.1, hm.2.trans hphase⟩
  · simp only [hr2]
    have he := markPhase_err g row.toNat col.toNat p e hr2
    rw [he]
    exact ⟨hinv, hphase⟩

theorem applyOp_blackout_times (g : Game) (op : GameOp) (hop : opClearColored op)
    (hrule : g.rule = GameRule.blackout) (hinv : g.blackoutTimesInv) :
    (g.applyOp op).blackoutTimesInv ∧ (g.applyOp op).rule = GameRule.blackout := by
  cases op with
  | mark row col p =>
      exact ⟨(markCell_blackout_times g row col p hrule hinv).1,
        ((markCell_blackout_times g row col p hrule hinv).2).trans hrule⟩
  | unmark row col =>
      exact ⟨(unmark_blackout_times g row col hrule hinv).1,
        ((unmark_blackout_times g row col hrule hinv).2).trans hrule⟩
  | clear row col p =>
      exact ⟨(clear_blackout_times g row col p hop hrule hinv).1,
        ((clear_blackout_times g row col p hop hrule hinv).2).trans hrule⟩

theorem applyOp_phase_times (g : Game) (op : GameOp)
    (hphase : g.rule = GameRule.phase) (hinv : g.phaseTimesInv) :
    (g.applyOp op).phaseTimesInv ∧ (g.applyOp op).rule = GameRule.phase := by
  cases op with
  | mark row col p =>
      exact ⟨(markCell_phase_times g row col p hphase hinv).1,
        ((markCell_phase_times g row col p hphase hinv).2).trans hphase⟩
  | unmark row col =>
      exact ⟨(unmark_phase_times g row col hphase hinv).1,
        ((unmark_phase_times g row col hphase hinv).2).trans hphase⟩
  | clear row col p =>
      exact ⟨(clear_phase_times g row col p hphase hinv).1,
        ((clear_phase_times g row col p hphase hinv).2).trans hphase⟩

theorem runOps_blackout_times (ops : List GameOp) (g : Game)
    (hops : ∀ op ∈ ops, opClearColored op)
    (hrule : g.rule = GameRule.blackout) (hinv : g.blackoutTimesInv) :
    (g.runOps ops).blackoutTimesInv := by
  induction ops generalizing g with
  | nil => exact hinv
  | cons op rest ih =>
      have h := applyOp_blackout_times g op (hops op (List.mem_cons_self op rest)) hrule hinv
      have hstep : g.runOps (op :: rest) = (g.applyOp op).runOps rest := rfl
      rw [hstep]
      exact ih (g.applyOp op) (fun o ho => hops o (List.mem_cons_of_mem op ho)) h.2 h.1

theorem runOps_phase_times (ops : List GameOp) (g : Game)
    (hphase : g.rule = GameRule.phase) (hinv : g.phaseTimesInv) :
    (g.runOps ops).phaseTimesInv := by
  induction ops generalizing g with
  | nil => exact hinv
  | cons op rest ih =>
      have h := applyOp_phase_times g op hphase hinv
      have hstep : g.runOps (op :: rest) = (g.applyOp op).runOps rest := rfl
      rw [hstep]
      exact ih (g.applyOp op) h.2 h.1

theorem mkStartedGame_blackoutTimesInv (rule : GameRule) (cfg : PhaseConfig) :
    (mkStartedGame rule cfg).blackoutTimesInv := by
  intro r c
  exact ⟨rfl, fun _ => rfl⟩

theorem mkStartedGame_phaseTimesInv (rule : GameRule) (cfg : PhaseConfig) :
    (mkStartedGame rule cfg).phaseTimesInv := by
  intro r c
  exact (rfl : cellTimesPhaseOk emptyCell)

/-- C2 (amended): for any config and any operation sequence whose
ClearCellMark steps name an actual color, every cell of a blackout game
satisfies the spec's equation times = (markedBy ≠ none) + (secondMark ≠ none)
together with "no second mark without a first"; under the phase rule the
spec's equation does NOT hold — what the code maintains instead is
times = (secondMark ≠ none): a first claim leaves times at 0. -/
theorem c2_times_invariant (cfg : PhaseConfig) (ops : List GameOp)
    (hops : ∀ op ∈ ops, opClearColored op) :
    ((mkStartedGame .blackout cfg).runOps ops).blackoutTimesInv ∧
    ((mkStartedGame .phase cfg).runOps ops).phaseTimesInv :=
  ⟨runOps_blackout_times ops _ hops rfl (mkStartedGame_blackoutTimesInv .blackout cfg),
   runOps_phase_times ops _ rfl (mkStartedGame_phaseTimesInv .phase cfg)⟩

theorem c2_times_invariant_witness :
    (∀ op ∈ [GameOp.mark 0 0 .red, GameOp.mark 0 0 .blue, GameOp.clear 0 0 .red],
        opClearColored op) ∧
    (((mkStartedGame .blackout defaultPhaseConfig).runOps
        [GameOp.mark 0 0 .red, GameOp.mark 0 0 .blue,
         GameOp.clear 0 0 .red]).blackoutTimesInv ∧
     ((mkStartedGame .phase defaultPhaseConfig).runOps
        [GameOp.mark 0 0 .red, GameOp.mark 0 0 .blue,
         GameOp.clear 0 0 .red]).phaseTimesInv) :=
  ⟨by simp [List.forall_mem_cons, opClearColored],
   c2_times_invariant defaultPhaseConfig _
     (by simp [List.forall_mem_cons, opClearColored])⟩

/-- C2 counterexample to the original claim: under the phase rule the very
first claim on a cell sets markedBy but leaves times at 0, so
times = (markedBy ≠ none) + (secondMark ≠ none) fails on that cell. -/
theorem c2_counterexample :
    (c2state.board 0 0).markedBy = PlayerColor.red ∧
    (c2state.board 0 0).times = 0 ∧
    ¬ cellTimesBlackoutOk (c2state.board 0 0) := by
  refine ⟨by decide, by decide, ?_⟩
  simp only [cellTimesBlackoutOk]
  decide

/-- C6 (code bug): `UnmarkCell` re-validates the recorded Bingo BEFORE the
cell is zeroed, so after unmarking cell (0,0) of red's completed column 0
the stale record survives: the achiever and line are still recorded even
though the line is no longer fully held on the resulting board. -/
theorem c6_unmark_keeps_stale_bingo :
    c6state.bingoAchiever = PlayerColor.red ∧
    c6state.bingoLine = 0 ∧
    (c6state.board 0 0).markedBy = PlayerColor.none ∧
    c6state.isBingoLineValid 0 PlayerColor.red = false := by
  refine ⟨by decide, by decide, by decide, by decide⟩

end Bingosync
